import Mathlib

/-!
# LiveStreamItem: the live-view renderer of src/ui/liveview/LiveStreamItem.cpp

A shallow embedding of the renderer item.  The item's members become a record, every member
function becomes a function on that record which also returns the ordered list of externally
visible calls it made (signals emitted, OpenGL calls, QPainter calls, Qt connection management,
calls on the stream object, debug output).  Everything the item reads from outside (the stream
objects, the stored settings, the paint engine, the texture name handed out by the GL driver) is
an explicit input.  A result of `none` stands for the process being terminated (a failed Q_ASSERT
in a debug build, or a null pointer dereference).

The member function fps() rounds a floating-point rate and touches no member; it is left out.
What LiveStream::start() does is not part of the file: the signals it emits before it returns
are an input of setStream and are delivered through the connection table like any other signal.
-/

namespace LiveStreamItem

/-! ## External data -/

/-- Numeric values of the members of the enumeration LiveStream::State that the item mentions.
The enumeration is declared in core/LiveStream.h, which is not among the sources, so its values
are a parameter of the model. -/
structure StateEnum where
  Error : Int
  StreamOffline : Int
  NotConnected : Int
  Connecting : Int
  Streaming : Int
  deriving DecidableEq, Repr

/-- The five enumerators denote five different values (the four used as case labels of one switch
have to, for the switch to compile). -/
def StateEnum.Distinct (e : StateEnum) : Prop :=
  [e.Error, e.StreamOffline, e.NotConnected, e.Connecting, e.Streaming].Nodup

instance (e : StateEnum) : Decidable e.Distinct := by
  unfold StateEnum.Distinct; infer_instance

/-- One possible numbering: the order in which the specification lists the states. -/
def listedOrder : StateEnum :=
  { NotConnected := 0, Connecting := 1, StreamOffline := 2, Streaming := 3, Error := 4 }

structure QSize where
  width : Int
  height : Int
  deriving DecidableEq, Repr

structure QRect where
  x : Int
  y : Int
  width : Int
  height : Int
  deriving DecidableEq, Repr

/-- The data behind a non-null QImage: its dimensions and the address returned by constBits(). -/
structure QImageData where
  width : Int
  height : Int
  constBits : Nat
  deriving DecidableEq, Repr

/-- A QImage; `none` is the null image (isNull() is true). -/
abbrev QImage := Option QImageData

/-- What the accessors of one LiveStream object return at some moment. -/
structure LiveStream where
  state : Int
  isPaused : Bool
  currentFrame : QImage
  errorMessage : String
  streamSize : QSize
  deriving DecidableEq, Repr

/-- Everything outside the item that its code reads: the stream objects, by address, and the
stored value of the setting ui/liveview/disableAdvancedOpengl. -/
structure World where
  streams : Nat → LiveStream
  disableAdvancedOpengl : Bool

/-- A QString argument of errorTextChanged: either tr() of a source literal, or QString(). -/
inductive QString where
  | tr (sourceText : String)
  | null
  deriving DecidableEq, Repr

/-- QPaintEngine::Type. -/
inductive PaintEngineType where
  | X11 | Windows | QuickDraw | CoreGraphics | MacPrinter | QWindowSystem | PostScript
  | OpenGL | Picture | SVG | Raster | Direct3D | Pdf | OpenVG | OpenGL2 | PaintBuffer | Blitter
  deriving DecidableEq, Repr

/-- The OpenGL symbolic constants that occur in the file, and GL_REPLACE, GL_NEAREST and
GL_REPEAT, which do not occur but are needed to say so. -/
inductive GLenum where
  | GL_TEXTURE_2D | GL_TEXTURE_PRIORITY | GL_TEXTURE_ENV | GL_TEXTURE_ENV_MODE | GL_MODULATE
  | GL_TEXTURE_MAG_FILTER | GL_TEXTURE_MIN_FILTER | GL_LINEAR | GL_TEXTURE_WRAP_S
  | GL_TEXTURE_WRAP_T | GL_CLAMP_TO_EDGE | GL_RGBA8 | GL_BGRA | GL_UNSIGNED_BYTE | GL_FLOAT
  | GL_VERTEX_ARRAY | GL_TEXTURE_COORD_ARRAY | GL_TRIANGLE_FAN
  | GL_REPLACE | GL_NEAREST | GL_REPEAT
  deriving DecidableEq, Repr

/-- The GLfloat argument of glTexParameterf and glTexEnvf: a numeric literal or an enumerator. -/
inductive GLparam where
  | literal (n : Int)
  | enumerator (v : GLenum)
  deriving DecidableEq, Repr

/-- OpenGL calls, with the arguments in the order of the C prototypes.  The texture-name
arguments of glGenTextures and glDeleteTextures are the one name written or read through the
pointer; coordinate arrays hold whole numbers, which is all the file stores in them. -/
inductive GLCall where
  | glEnable (cap : GLenum)
  | glBindTexture (target : GLenum) (texture : Nat)
  | glTexSubImage2D (target : GLenum) (level xoffset yoffset width height : Int)
      (format type : GLenum) (pixels : Nat)
  | glGenTextures (n : Nat) (texture : Nat)
  | glTexParameterf (target pname : GLenum) (param : GLparam)
  | glTexEnvf (target pname : GLenum) (param : GLparam)
  | glTexImage2D (target : GLenum) (level : Int) (internalformat : GLenum)
      (width height border : Int) (format type : GLenum) (pixels : Nat)
  | glVertexPointer (size : Int) (type : GLenum) (stride : Int) (pointer : List Int)
  | glTexCoordPointer (size : Int) (type : GLenum) (stride : Int) (pointer : List Int)
  | glEnableClientState (array : GLenum)
  | glDisableClientState (array : GLenum)
  | glDrawArrays (mode : GLenum) (first count : Int)
  | glDeleteTextures (n : Nat) (texture : Nat)
  deriving DecidableEq, Repr

inductive GlobalColor where
  | black
  deriving DecidableEq, Repr

inductive CompositionMode where
  | CompositionMode_SourceOver
  | CompositionMode_Source
  deriving DecidableEq, Repr

/-- Calls on the QPainter handed to paint. -/
inductive PainterCall where
  | fillRect (r : QRect) (color : GlobalColor)
  | beginNativePainting
  | endNativePainting
  | save
  | setCompositionMode (mode : CompositionMode)
  | drawImage (r : QRect) (image : QImageData)
  | restore
  deriving DecidableEq, Repr

/-- The signals of the item. -/
inductive ItemSignal where
  | errorTextChanged (text : QString)
  | pausedChanged (paused : Bool)
  | connectedChanged (connected : Bool)
  | frameSizeChanged (size : QSize)
  deriving DecidableEq, Repr

/-! ## Qt connections -/

inductive Sender where
  | bcApp
  | stream (address : Nat)
  deriving DecidableEq, Repr

/-- Names of the signals the item connects to. -/
inductive SignalName where
  | settingsChanged | updated | streamSizeChanged | stateChanged | pausedChanged
  deriving DecidableEq, Repr

/-- The slots of the item, and its signal pausedChanged used as the target of a connection. -/
inductive Method where
  | updateSettings | updateFrame | updateFrameSize | streamStateChanged | pausedChanged
  deriving DecidableEq, Repr

/-- One entry of the connection table whose receiver is the item. -/
structure Connection where
  sender : Sender
  signal : SignalName
  method : Method
  deriving DecidableEq, Repr

/-- One emission of a signal by a sender, with its arguments. -/
inductive SignalEvent where
  | settingsChanged
  | updated
  | streamSizeChanged (size : QSize)
  | stateChanged (state : Int)
  | pausedChanged (paused : Bool)
  deriving DecidableEq, Repr

def SignalEvent.name : SignalEvent → SignalName
  | .settingsChanged => .settingsChanged
  | .updated => .updated
  | .streamSizeChanged _ => .streamSizeChanged
  | .stateChanged _ => .stateChanged
  | .pausedChanged _ => .pausedChanged

/-- Everything the item does that is visible outside it, in program order. -/
inductive Effect where
  | emit (s : ItemSignal)
  | gl (c : GLCall)
  | painter (c : PainterCall)
  | connect (c : Connection)
  | disconnect (stream : Nat)
  | start (stream : Nat)
  | setPaused (stream : Nat) (paused : Bool)
  | qDebug (items : List String)
  | setFlagItemHasNoContents (enabled : Bool)
  | update
  deriving DecidableEq, Repr

/-! ## The item -/

/-- The members of LiveStreamItem, the function-local static `c` of paint, and the entries of
Qt's connection table that have the item as receiver. -/
structure State where
  m_stream : Option Nat
  m_useAdvancedGL : Bool
  m_texId : Nat
  m_texDataPtr : Nat
  c : Int
  connections : List Connection
  deriving DecidableEq, Repr

/-- What the stream object does inside start(), as far as the item can tell: the signals it emits
before start() returns, each with the world as it is at that emission, and the world when start()
returns. -/
structure StartReaction where
  emissions : List (World × SignalEvent)
  after : World

def isPaused (s : State) (w : World) : Bool :=
  match s.m_stream with
  | some p => (w.streams p).isPaused
  | none => false

def isConnected (e : StateEnum) (s : State) (w : World) : Bool :=
  match s.m_stream with
  | some p => decide ((w.streams p).state ≥ e.Streaming)
  | none => false

/-- Modelled from the spec: frameSize() is defined in LiveStreamItem.h, which is not among the
sources; the spec calls the value emitted with frame-size-changed the current frame size, taken
here to be the size the bound stream reports, and an invalid size when no stream is bound. -/
def frameSize (s : State) (w : World) : QSize :=
  match s.m_stream with
  | some p => (w.streams p).streamSize
  | none => { width := -1, height := -1 }

/-- Modelled from the spec: the slot updateFrame() is defined in LiveStreamItem.h, which is not
among the sources; the spec gives the frame-ready notification no effect on the cached texture,
so the slot is a repaint request that leaves the members alone. -/
def updateFrame (s : State) : State × List Effect :=
  (s, [.update])

def setPaused (paused : Bool) (s : State) : State × List Effect :=
  match s.m_stream with
  | some p => (s, [.setPaused p paused])
  | none => (s, [])

def updateFrameSize (s : State) (w : World) : State × List Effect :=
  if s.m_texId ≠ 0 then
    let s1 := { s with m_texId := 0 }
    (s1, [.gl (.glDeleteTextures 1 s.m_texId), .emit (.frameSizeChanged (frameSize s1 w))])
  else
    (s, [.emit (.frameSizeChanged (frameSize s w))])

def updateSettings (s : State) (w : World) : State × List Effect :=
  let s1 := { s with m_useAdvancedGL := !w.disableAdvancedOpengl }
  if !s1.m_useAdvancedGL && s1.m_texId ≠ 0 then
    ({ s1 with m_texId := 0 }, [.gl (.glDeleteTextures 1 s1.m_texId)])
  else
    (s1, [])

/-- The text of an errorTextChanged emission chosen by the switch of streamStateChanged; the case
labels are tried in the order they are written. -/
def stateText (e : StateEnum) (state : Int) : QString :=
  if state = e.Error then .tr "<span style=\x27color:#ff0000;\x27>Error</span>"
  else if state = e.StreamOffline then .tr "Offline"
  else if state = e.NotConnected then .tr "Disconnected"
  else if state = e.Connecting then .tr "Connecting..."
  else .null

/-- The slot streamStateChanged.  `dbg` tells whether Q_ASSERT is compiled in.  In the Error case
the debug line reads m_stream->errorMessage(), which needs a stream. -/
def streamStateChanged (dbg : Bool) (e : StateEnum) (state : Int) (s : State) (w : World) :
    Option (State × List Effect) :=
  if dbg && s.m_stream.isNone then none
  else
    let t0 : List Effect := [.emit (.connectedChanged (isConnected e s w))]
    if state = e.Error then
      match s.m_stream with
      | none => none
      | some p =>
        some (s, t0 ++ [.qDebug ["Live stream error:", (w.streams p).errorMessage],
                        .emit (.errorTextChanged (stateText e state))])
    else
      some (s, t0 ++ [.emit (.errorTextChanged (stateText e state))])

/-- The part of the accelerated path after the texture has been brought up to date: the quad
over the destination rectangle and the end of native painting. -/
def drawQuad (rect : QRect) : List Effect :=
  [.gl (.glVertexPointer 2 .GL_FLOAT 0 [0, 0, rect.width, 0, rect.width, rect.height, 0, rect.height]),
   .gl (.glTexCoordPointer 2 .GL_FLOAT 0 [0, 0, 1, 0, 1, 1, 0, 1]),
   .gl (.glEnableClientState .GL_VERTEX_ARRAY),
   .gl (.glEnableClientState .GL_TEXTURE_COORD_ARRAY),
   .gl (.glDrawArrays .GL_TRIANGLE_FAN 0 4),
   .gl (.glDisableClientState .GL_VERTEX_ARRAY),
   .gl (.glDisableClientState .GL_TEXTURE_COORD_ARRAY),
   .painter .endNativePainting]

/-- The GL calls of the branch of paint that creates the texture, for the name `name` written
by glGenTextures. -/
def createTexture (name : Nat) (frame : QImageData) : List Effect :=
  [.gl (.glGenTextures 1 name),
   .gl (.glBindTexture .GL_TEXTURE_2D name),
   .gl (.glTexParameterf .GL_TEXTURE_2D .GL_TEXTURE_PRIORITY (.literal 1)),
   .gl (.glTexEnvf .GL_TEXTURE_ENV .GL_TEXTURE_ENV_MODE (.enumerator .GL_MODULATE)),
   .gl (.glTexParameterf .GL_TEXTURE_2D .GL_TEXTURE_MAG_FILTER (.enumerator .GL_LINEAR)),
   .gl (.glTexParameterf .GL_TEXTURE_2D .GL_TEXTURE_MIN_FILTER (.enumerator .GL_LINEAR)),
   .gl (.glTexParameterf .GL_TEXTURE_2D .GL_TEXTURE_WRAP_S (.enumerator .GL_CLAMP_TO_EDGE)),
   .gl (.glTexParameterf .GL_TEXTURE_2D .GL_TEXTURE_WRAP_T (.enumerator .GL_CLAMP_TO_EDGE)),
   .gl (.glTexImage2D .GL_TEXTURE_2D 0 .GL_RGBA8 frame.width frame.height 0 .GL_BGRA
          .GL_UNSIGNED_BYTE frame.constBits)]

/-- The member function paint.  `engine` is p->paintEngine()->type(), `rect` is opt->rect and
`newName` is the texture name glGenTextures writes, should it be called.  `dbg` tells whether
Q_ASSERT is compiled in. -/
def paint (dbg : Bool) (engine : PaintEngineType) (rect : QRect) (newName : Nat) (s : State)
    (w : World) : Option (State × List Effect) :=
  match s.m_stream with
  | none => some (s, [])
  | some p =>
    match (w.streams p).currentFrame with
    | none => some (s, [.painter (.fillRect rect .black)])
    | some frame =>
      if s.m_useAdvancedGL && engine == .OpenGL2 then
        -- if (c) { c = 0; qDebug(...); }: afterwards c is 0 either way
        let t1 : List Effect := if s.c ≠ 0 then [.qDebug ["Using advanced OpenGL output"]] else []
        let s1 := { s with c := 0 }
        let t2 : List Effect := [.painter .beginNativePainting, .gl (.glEnable .GL_TEXTURE_2D)]
        if s1.m_texId ≠ 0 then
          let t3 : List Effect := [.gl (.glBindTexture .GL_TEXTURE_2D s1.m_texId)]
          if frame.constBits ≠ s1.m_texDataPtr then
            some ({ s1 with m_texDataPtr := frame.constBits },
              t1 ++ t2 ++ t3 ++
                [.gl (.glTexSubImage2D .GL_TEXTURE_2D 0 0 0 frame.width frame.height .GL_BGRA
                        .GL_UNSIGNED_BYTE frame.constBits)] ++ drawQuad rect)
          else
            some (s1, t1 ++ t2 ++ t3 ++ drawQuad rect)
        else
          if dbg && newName == 0 then none
          else
            some ({ s1 with m_texId := newName, m_texDataPtr := frame.constBits },
              t1 ++ t2 ++ createTexture newName frame ++ drawQuad rect)
      else
        some (s, [.painter .save, .painter (.setCompositionMode .CompositionMode_Source),
                  .painter (.drawImage rect frame), .painter .restore])

/-- A call of one connected method for one emission.  A method whose parameters do not fit the
signal cannot have been connected; such a pair does nothing. -/
def invoke (dbg : Bool) (e : StateEnum) (w : World) (m : Method) (ev : SignalEvent) (s : State) :
    Option (State × List Effect) :=
  match m, ev with
  | .updateSettings, _ => some (updateSettings s w)
  | .updateFrame, _ => some (updateFrame s)
  | .updateFrameSize, _ => some (updateFrameSize s w)
  | .streamStateChanged, .stateChanged state => streamStateChanged dbg e state s w
  | .pausedChanged, .pausedChanged paused => some (s, [.emit (.pausedChanged paused)])
  | _, _ => some (s, [])

/-- Calls the given methods one after the other for one emission. -/
def invokeAll (dbg : Bool) (e : StateEnum) (w : World) (ev : SignalEvent) :
    List Method → State → Option (State × List Effect)
  | [], s => some (s, [])
  | m :: ms, s =>
    match invoke dbg e w m ev s with
    | none => none
    | some (s1, t1) =>
      match invokeAll dbg e w ev ms s1 with
      | none => none
      | some (s2, t2) => some (s2, t1 ++ t2)

/-- Qt delivering one emission of `sender` to the item: every connection of that sender and
signal, in the order the connections were made, has its method called. -/
def dispatch (dbg : Bool) (e : StateEnum) (w : World) (sender : Sender) (ev : SignalEvent)
    (s : State) : Option (State × List Effect) :=
  invokeAll dbg e w ev
    ((s.connections.filter (fun k => k.sender = sender ∧ k.signal = ev.name)).map (·.method)) s

/-- Delivers, in order, the emissions a stream makes while start() runs. -/
def deliverAll (dbg : Bool) (e : StateEnum) (sender : Sender) :
    List (World × SignalEvent) → State → Option (State × List Effect)
  | [], s => some (s, [])
  | (w, ev) :: rest, s =>
    match dispatch dbg e w sender ev s with
    | none => none
    | some (s1, t1) =>
      match deliverAll dbg e sender rest s1 with
      | none => none
      | some (s2, t2) => some (s2, t1 ++ t2)

/-- The four connections setStream makes to a stream. -/
def streamConnections (b : Nat) : List Connection :=
  [{ sender := .stream b, signal := .updated, method := .updateFrame },
   { sender := .stream b, signal := .streamSizeChanged, method := .updateFrameSize },
   { sender := .stream b, signal := .stateChanged, method := .streamStateChanged },
   { sender := .stream b, signal := .pausedChanged, method := .pausedChanged }]

/-- The member function setStream.  `r` is what the new stream does inside start(); it is not
looked at when start() is not called. -/
def setStream (dbg : Bool) (e : StateEnum) (stream : Option Nat) (r : StartReaction) (s : State) :
    Option (State × List Effect) :=
  if stream = s.m_stream then some (s, [])
  else
    let t1 : List Effect :=
      match s.m_stream with
      | some a => [.disconnect a]
      | none => []
    let s1 : State :=
      match s.m_stream with
      | some a => { s with connections := s.connections.filter (fun k => k.sender ≠ .stream a) }
      | none => s
    let s2 := { s1 with m_stream := stream }
    let tail (s3 : State) (t : List Effect) : Option (State × List Effect) :=
      let t4 : List Effect := [.emit (.pausedChanged (isPaused s3 r.after)),
                               .emit (.connectedChanged (isConnected e s3 r.after))]
      let (s4, t5) := updateFrameSize s3 r.after
      let (s5, t6) := updateFrame s4
      some (s5, t ++ t4 ++ t5 ++ t6)
    match stream with
    | some b =>
      let s3 := { s2 with connections := s2.connections ++ streamConnections b }
      match deliverAll dbg e (.stream b) r.emissions s3 with
      | none => none
      | some (s4, t3) =>
        tail s4 (t1 ++ (streamConnections b).map Effect.connect ++ [.start b] ++ t3)
    | none =>
      tail s2 (t1 ++ [.emit (.errorTextChanged (.tr "No<br>Video"))])

/-- The member function clear.  No stream is started, so the world `w` is all setStream reads. -/
def clear (dbg : Bool) (e : StateEnum) (s : State) (w : World) : Option (State × List Effect) :=
  match setStream dbg e none { emissions := [], after := w } s with
  | none => none
  | some (s1, t1) =>
    if s1.m_texId ≠ 0 then
      some ({ s1 with m_texId := 0 }, t1 ++ [.gl (.glDeleteTextures 1 s1.m_texId)])
    else
      some (s1, t1)

/-- The constructor.  `c` is the value the static of paint has when the item is made (1 until
some item has painted on the accelerated path). -/
def construct (c : Int) (w : World) : State × List Effect :=
  let s0 : State :=
    { m_stream := none, m_useAdvancedGL := true, m_texId := 0, m_texDataPtr := 0, c := c,
      connections := [] }
  let (s1, t1) := updateSettings s0 w
  let k : Connection := { sender := .bcApp, signal := .settingsChanged, method := .updateSettings }
  ({ s1 with connections := s1.connections ++ [k] },
    [.setFlagItemHasNoContents false] ++ t1 ++ [.connect k])

/-- The destructor. -/
def destruct (s : State) : List Effect :=
  if s.m_texId ≠ 0 then [.gl (.glDeleteTextures 1 s.m_texId)] else []

/-! ## Runs -/

/-- What can happen to an item after its construction. -/
inductive Op where
  | setStream (stream : Option Nat) (r : StartReaction)
  | clear
  | setPaused (paused : Bool)
  | paint (engine : PaintEngineType) (rect : QRect) (newName : Nat)
  | signal (sender : Sender) (ev : SignalEvent)

/-- One operation, in the world as it is when the operation starts. -/
def step (dbg : Bool) (e : StateEnum) (w : World) (op : Op) (s : State) :
    Option (State × List Effect) :=
  match op with
  | .setStream stream r => setStream dbg e stream r s
  | .clear => clear dbg e s w
  | .setPaused paused => some (setPaused paused s)
  | .paint engine rect newName => paint dbg engine rect newName s w
  | .signal sender ev => dispatch dbg e w sender ev s

/-- A sequence of operations, each with the world at its time; the effects are concatenated. -/
def run (dbg : Bool) (e : StateEnum) : List (World × Op) → State → Option (State × List Effect)
  | [], s => some (s, [])
  | (w, op) :: rest, s =>
    match step dbg e w op s with
    | none => none
    | some (s1, t1) =>
      match run dbg e rest s1 with
      | none => none
      | some (s2, t2) => some (s2, t1 ++ t2)

/-- Like `run`, but keeps the effects of each operation apart. -/
def runEach (dbg : Bool) (e : StateEnum) :
    List (World × Op) → State → Option (State × List (List Effect))
  | [], s => some (s, [])
  | (w, op) :: rest, s =>
    match step dbg e w op s with
    | none => none
    | some (s1, t1) =>
      match runEach dbg e rest s1 with
      | none => none
      | some (s2, ts) => some (s2, t1 :: ts)

/-! ## Reading traces -/

/-- The texts of the errorTextChanged emissions of a trace, in order. -/
def errorTexts (t : List Effect) : List QString :=
  t.filterMap fun x => match x with
    | .emit (.errorTextChanged text) => some text
    | _ => none

/-- The arguments of the connectedChanged emissions of a trace, in order. -/
def connectedEmissions (t : List Effect) : List Bool :=
  t.filterMap fun x => match x with
    | .emit (.connectedChanged b) => some b
    | _ => none

/-- The OpenGL calls of a trace, in order. -/
def glCalls (t : List Effect) : List GLCall :=
  t.filterMap fun x => match x with
    | .gl c => some c
    | _ => none

/-- The QPainter calls of a trace, in order. -/
def painterCalls (t : List Effect) : List PainterCall :=
  t.filterMap fun x => match x with
    | .painter c => some c
    | _ => none

/-- The calls of a list of OpenGL calls that set a texture or texture-environment parameter. -/
def paramCalls (cs : List GLCall) : List GLCall :=
  cs.filter fun c => match c with
    | .glTexParameterf _ _ _ => true
    | .glTexEnvf _ _ _ => true
    | _ => false

/-- A stream object that is connecting, has no frame yet and is not paused. -/
def connectingStream : LiveStream :=
  { state := listedOrder.Connecting, isPaused := false, currentFrame := none,
    errorMessage := "", streamSize := { width := 0, height := 0 } }

/-- A stream object that is streaming and shows a 640 x 480 frame stored at address 4096. -/
def streamingStream : LiveStream :=
  { state := listedOrder.Streaming, isPaused := false,
    currentFrame := some { width := 640, height := 480, constBits := 4096 },
    errorMessage := "", streamSize := { width := 640, height := 480 } }

/-- A world in which every stream object looks like `x` and acceleration is not disabled. -/
def worldOf (x : LiveStream) : World :=
  { streams := fun _ => x, disableAdvancedOpengl := false }

/-- An item bound to the stream at address 7, as setStream leaves it, with no texture. -/
def boundItem : State :=
  { m_stream := some 7, m_useAdvancedGL := true, m_texId := 0, m_texDataPtr := 0, c := 1,
    connections :=
      { sender := .bcApp, signal := .settingsChanged, method := .updateSettings } ::
        streamConnections 7 }

/-- A destination rectangle used in examples. -/
def sampleRect : QRect := { x := 0, y := 0, width := 320, height := 240 }

/-- How many glGenTextures, glTexImage2D and glTexSubImage2D calls a trace holds, in this
order. -/
def uploadCounts (t : List Effect) : Nat × Nat × Nat :=
  ((glCalls t).countP (fun c => match c with | .glGenTextures _ _ => true | _ => false),
   (glCalls t).countP (fun c => match c with | .glTexImage2D _ _ _ _ _ _ _ _ _ => true | _ => false),
   (glCalls t).countP (fun c => match c with | .glTexSubImage2D _ _ _ _ _ _ _ _ _ => true | _ => false))

/-- The uploads the specification prescribes for successive paint calls, written from its words
and not from the code: given the buffer address of the previous call (`none` before the first
call, when no texture exists) and the buffer addresses of the frames of the calls, the first call
allocates (one glGenTextures, one glTexImage2D), a later call makes one glTexSubImage2D when its
address differs from the previous one and no upload call at all when it does not. -/
def specUploads : Option Nat → List Nat → List (Nat × Nat × Nat)
  | _, [] => []
  | none, b :: bs => (1, 1, 0) :: specUploads (some b) bs
  | some previous, b :: bs =>
    (if b ≠ previous then (0, 0, 1) else (0, 0, 0)) :: specUploads (some b) bs

/-- The texture members agree with the last paint call: no texture before the first call,
afterwards a texture whose recorded address is that of the previous call. -/
def TextureTracks (s : State) : Option Nat → Prop
  | none => s.m_texId = 0
  | some previous => s.m_texId ≠ 0 ∧ s.m_texDataPtr = previous

/-- Three accelerated paint calls: the frame at address 4096 twice, then one at address 8192. -/
def samplePaints : List (World × QRect × Nat) :=
  [(worldOf streamingStream, sampleRect, 5),
   (worldOf streamingStream, sampleRect, 6),
   (worldOf { streamingStream with
      currentFrame := some { width := 640, height := 480, constBits := 8192 } }, sampleRect, 9)]

/-- The frames the stream shows at the calls of `samplePaints`. -/
def sampleFrames : List QImageData :=
  [{ width := 640, height := 480, constBits := 4096 },
   { width := 640, height := 480, constBits := 4096 },
   { width := 640, height := 480, constBits := 8192 }]

/-- The texture names that are alive after a trace, given those alive before it: glGenTextures
adds the name it wrote, glDeleteTextures removes the name it was given (if it is there). -/
def liveAfter : List Nat → List Effect → List Nat
  | live, [] => live
  | live, .gl (.glGenTextures _ n) :: t => liveAfter (n :: live) t
  | live, .gl (.glDeleteTextures _ n) :: t => liveAfter (live.erase n) t
  | live, _ :: t => liveAfter live t

/-- Replays a trace against the live texture names and checks the discipline on the way: a
name may be generated only when none is alive, and a deletion has to name the one that is
alive.  The result is the names alive at the end, or `none` if the discipline was broken. -/
def replay : List Nat → List Effect → Option (List Nat)
  | live, [] => some live
  | live, .gl (.glGenTextures _ n) :: t => if live = [] then replay [n] t else none
  | live, .gl (.glDeleteTextures _ n) :: t => if live = [n] then replay [] t else none
  | live, _ :: t => replay live t

/-- The texture names the item believes to be alive: the one in m_texId, if that is not 0. -/
def texLive (s : State) : List Nat :=
  if s.m_texId = 0 then [] else [s.m_texId]

/-- The effect is a glGenTextures or a glDeleteTextures call. -/
def Effect.isTextureCall : Effect → Bool
  | .gl (.glGenTextures _ _) => true
  | .gl (.glDeleteTextures _ _) => true
  | _ => false

/-- No texture is held while acceleration is disabled. -/
def AccelInv (s : State) : Prop :=
  s.m_useAdvancedGL = false → s.m_texId = 0

/-- The connection table is what the constructor and setStream leave behind: the connection to
bcApp, followed by the four connections to the bound stream, if there is one. -/
def Good (s : State) : Prop :=
  s.connections =
    { sender := .bcApp, signal := .settingsChanged, method := .updateSettings } ::
      (match s.m_stream with
       | some p => streamConnections p
       | none => [])

/-- A step from `s` to `s1` with trace `t` that keeps the texture discipline, keeps `AccelInv`
and generates no texture name. -/
structure Calm (s : State) (t : List Effect) (s1 : State) : Prop where
  accel : AccelInv s → AccelInv s1
  replayed : replay (texLive s) t = some (texLive s1)
  noGen : ∀ k n, Effect.gl (.glGenTextures k n) ∉ t

/-- The connection table after the disconnect of setStream. -/
def disconnected (s : State) : List Connection :=
  match s.m_stream with
  | some a => s.connections.filter (fun k => k.sender ≠ .stream a)
  | none => s.connections

/-- The item after the connection management of setStream for a new stream `b`: the old
stream disconnected, `b` adopted and connected. -/
def rebound (s : State) (b : Nat) : State :=
  { s with m_stream := some b, connections := disconnected s ++ streamConnections b }

/-- The item after setStream has dropped its stream. -/
def unbound (s : State) : State :=
  { s with m_stream := none, connections := disconnected s }

/-- The trace of the disconnect of setStream. -/
def disconnectTrace (s : State) : List Effect :=
  match s.m_stream with
  | some a => [.disconnect a]
  | none => []

/-- The operation, if it is a paint call, is given a non-zero texture name by the driver. -/
def Op.NonZeroName : Op → Prop
  | .paint _ _ newName => newName ≠ 0
  | _ => True

/-- What the stream at address 7 does in start() in the examples: it goes to Connecting and
says so. -/
def sampleStart : StartReaction :=
  { emissions := [(worldOf connectingStream, .stateChanged listedOrder.Connecting)],
    after := worldOf connectingStream }

/-- Binds the stream at address 7 and paints its first frame on the accelerated path. -/
def sampleOps : List (World × Op) :=
  [(worldOf connectingStream, .setStream (some 7) sampleStart),
   (worldOf streamingStream, .paint .OpenGL2 sampleRect 5)]

/-- One more accelerated paint call. -/
def sampleOps2 : List (World × Op) :=
  [(worldOf streamingStream, .paint .OpenGL2 sampleRect 6)]

/-- The item after `sampleOps`: bound to the stream at address 7 and holding texture 5. -/
def paintedItem : State :=
  { boundItem with m_texId := 5, m_texDataPtr := 4096, c := 0 }

/-- Binding the stream at address 7, dropping it with clear(), then binding the stream at
address 8, which is already connecting and therefore emits nothing in start(). -/
def rebindAfterClear : List (World × Op) :=
  [(worldOf connectingStream, .setStream (some 7) sampleStart),
   (worldOf connectingStream, .clear),
   (worldOf connectingStream,
      .setStream (some 8) { emissions := [], after := worldOf connectingStream })]

/-! ## Properties -/

/-- What streamStateChanged does when a stream is bound, as one equation. -/
theorem streamStateChanged_bound (dbg : Bool) (e : StateEnum) (state : Int) (s : State)
    (w : World) (p : Nat) (hb : s.m_stream = some p) :
    streamStateChanged dbg e state s w =
      some (s, [Effect.emit (.connectedChanged (decide ((w.streams p).state ≥ e.Streaming)))] ++
        (if state = e.Error then [Effect.qDebug ["Live stream error:", (w.streams p).errorMessage]]
          else []) ++
        [Effect.emit (.errorTextChanged (stateText e state))]) := by
  by_cases h1 : state = e.Error <;> simp [streamStateChanged, hb, h1, isConnected]

theorem stateText_cases (e : StateEnum) (hd : e.Distinct) (state : Int) :
    (state = e.Error → stateText e state = .tr "<span style=\x27color:#ff0000;\x27>Error</span>") ∧
    (state = e.StreamOffline → stateText e state = .tr "Offline") ∧
    (state = e.NotConnected → stateText e state = .tr "Disconnected") ∧
    (state = e.Connecting → stateText e state = .tr "Connecting...") ∧
    (state = e.Streaming → stateText e state = .null) ∧
    (state ≠ e.Error → state ≠ e.StreamOffline → state ≠ e.NotConnected →
      state ≠ e.Connecting → stateText e state = .null) := by
  simp only [StateEnum.Distinct, List.nodup_cons, List.mem_cons, List.mem_singleton, not_or,
    List.not_mem_nil, not_false_eq_true, List.nodup_nil, and_true] at hd
  obtain ⟨⟨h12, h13, h14, h15⟩, ⟨h23, h24, h25⟩, ⟨h34, h35⟩, h45⟩ := hd
  refine ⟨?_, ?_, ?_, ?_, ?_, ?_⟩
  · intro h; subst h; simp [stateText]
  · intro h; subst h; simp [stateText, Ne.symm h12]
  · intro h; subst h; simp [stateText, Ne.symm h13, Ne.symm h23]
  · intro h; subst h; simp [stateText, Ne.symm h14, Ne.symm h24, Ne.symm h34]
  · intro h; subst h; simp [stateText, Ne.symm h15, Ne.symm h25, Ne.symm h35, Ne.symm h45]
  · intro h1 h2 h3 h4; simp [stateText, h1, h2, h3, h4]

/-- C1: a state-changed event on a bound stream emits exactly one errorTextChanged, and its text
depends on the state value alone: the fixed red Error label for Error, Offline for StreamOffline,
Disconnected for NotConnected, Connecting... for Connecting, and the empty string for Streaming
and for every other value. -/
theorem streamStateChanged_text (dbg : Bool) (e : StateEnum) (hd : e.Distinct) (state : Int)
    (s : State) (w : World) (p : Nat) (hb : s.m_stream = some p) :
    ∃ t text, streamStateChanged dbg e state s w = some (s, t) ∧ errorTexts t = [text] ∧
      (state = e.Error → text = .tr "<span style=\x27color:#ff0000;\x27>Error</span>") ∧
      (state = e.StreamOffline → text = .tr "Offline") ∧
      (state = e.NotConnected → text = .tr "Disconnected") ∧
      (state = e.Connecting → text = .tr "Connecting...") ∧
      (state = e.Streaming → text = .null) ∧
      (state ≠ e.Error → state ≠ e.StreamOffline → state ≠ e.NotConnected →
        state ≠ e.Connecting → text = .null) := by
  refine ⟨_, stateText e state, streamStateChanged_bound dbg e state s w p hb, ?_,
    stateText_cases e hd state⟩
  by_cases h1 : state = e.Error <;> simp [errorTexts, h1]

theorem streamStateChanged_text_witness :
    ∃ t text, streamStateChanged true listedOrder 4 boundItem
        (worldOf { connectingStream with state := 4, errorMessage := "timeout" })
        = some (boundItem, t) ∧ errorTexts t = [text] ∧
      ((4 : Int) = listedOrder.Error →
        text = .tr "<span style=\x27color:#ff0000;\x27>Error</span>") ∧
      ((4 : Int) = listedOrder.StreamOffline → text = .tr "Offline") ∧
      ((4 : Int) = listedOrder.NotConnected → text = .tr "Disconnected") ∧
      ((4 : Int) = listedOrder.Connecting → text = .tr "Connecting...") ∧
      ((4 : Int) = listedOrder.Streaming → text = .null) ∧
      ((4 : Int) ≠ listedOrder.Error → (4 : Int) ≠ listedOrder.StreamOffline →
        (4 : Int) ≠ listedOrder.NotConnected → (4 : Int) ≠ listedOrder.Connecting →
        text = .null) :=
  streamStateChanged_text true listedOrder (by decide) 4 boundItem _ 7 rfl

/-- With the stateChanged connection in place, delivering a state-changed emission of the bound
stream is one call of streamStateChanged. -/
theorem dispatch_stateChanged (dbg : Bool) (e : StateEnum) (w : World) (s : State) (p : Nat)
    (state : Int)
    (hconn : (s.connections.filter
        (fun k => k.sender = Sender.stream p ∧ k.signal = SignalName.stateChanged)).map
          (·.method) = [Method.streamStateChanged]) :
    dispatch dbg e w (.stream p) (.stateChanged state) s =
      (streamStateChanged dbg e state s w).map (fun r => (r.1, r.2 ++ [])) := by
  unfold dispatch
  rw [show (SignalEvent.stateChanged state).name = SignalName.stateChanged from rfl, hconn]
  simp only [invokeAll, invoke]
  cases streamStateChanged dbg e state s w <;> simp

/-- C5 (as stated, refuted): an item bound to a stream that is not connected receives two
state-changed events, Connecting and then StreamOffline.  The connected flag is false before,
between and after them, yet connectedChanged is emitted twice. -/
theorem connectedChanged_without_transition :
    isConnected listedOrder boundItem (worldOf connectingStream) = false ∧
    run true listedOrder
      [(worldOf connectingStream, .signal (.stream 7) (.stateChanged listedOrder.Connecting)),
       (worldOf { connectingStream with state := listedOrder.StreamOffline },
          .signal (.stream 7) (.stateChanged listedOrder.StreamOffline))] boundItem
      = some (boundItem,
          [.emit (.connectedChanged false), .emit (.errorTextChanged (.tr "Connecting...")),
           .emit (.connectedChanged false), .emit (.errorTextChanged (.tr "Offline"))]) := by
  constructor
  · rfl
  · rfl

/-- C5 (amended): every state-changed event delivered to an item bound to a stream emits
connectedChanged exactly once, whether or not the flag changed, and the value emitted is whether
the ordinal of the stream's state is at least that of Streaming; when the event carries the
stream's state, connectedChanged(true) is emitted iff that ordinal is at least Streaming's. -/
theorem connectedChanged_every_event (dbg : Bool) (e : StateEnum) (s : State) (p : Nat)
    (hb : s.m_stream = some p)
    (hconn : (s.connections.filter
        (fun k => k.sender = Sender.stream p ∧ k.signal = SignalName.stateChanged)).map
          (·.method) = [Method.streamStateChanged])
    (events : List (World × Int)) :
    ∃ ts, runEach dbg e
        (events.map fun x => (x.1, Op.signal (.stream p) (.stateChanged x.2))) s = some (s, ts) ∧
      ts.map connectedEmissions
        = events.map (fun x => [decide ((x.1.streams p).state ≥ e.Streaming)]) ∧
      ((∀ x ∈ events, (x.1.streams p).state = x.2) →
        ts.map connectedEmissions = events.map (fun x => [decide (x.2 ≥ e.Streaming)])) := by
  induction events with
  | nil => exact ⟨[], rfl, rfl, fun _ => rfl⟩
  | cons x rest ih =>
    obtain ⟨ts, hrun, hem, hsame⟩ := ih
    have hstep : ∃ t, step dbg e x.1 (Op.signal (.stream p) (.stateChanged x.2)) s = some (s, t) ∧
        connectedEmissions t = [decide ((x.1.streams p).state ≥ e.Streaming)] := by
      have h := dispatch_stateChanged dbg e x.1 s p x.2 hconn
      rw [streamStateChanged_bound dbg e x.2 s x.1 p hb] at h
      simp only [Option.map] at h
      refine ⟨_, h, ?_⟩
      by_cases h1 : x.2 = e.Error <;> simp [connectedEmissions, h1]
    obtain ⟨t, hstep, hce⟩ := hstep
    refine ⟨t :: ts, ?_, ?_, ?_⟩
    · simp only [List.map_cons, runEach, hstep, hrun]
    · simp only [List.map_cons, hce, hem]
    · intro hall
      have h1 := hall x (List.mem_cons_self _ _)
      have h2 := hsame (fun y hy => hall y (List.mem_cons_of_mem _ hy))
      simp only [List.map_cons, hce, h2, h1]

theorem connectedChanged_every_event_witness :
    ∃ ts, runEach true listedOrder
        ([(worldOf connectingStream, (1 : Int)), (worldOf streamingStream, (3 : Int))].map
          fun x => (x.1, Op.signal (.stream 7) (.stateChanged x.2))) boundItem
        = some (boundItem, ts) ∧
      ts.map connectedEmissions
        = [(worldOf connectingStream, (1 : Int)), (worldOf streamingStream, (3 : Int))].map
            (fun x => [decide ((x.1.streams 7).state ≥ listedOrder.Streaming)]) ∧
      ((∀ x ∈ [(worldOf connectingStream, (1 : Int)), (worldOf streamingStream, (3 : Int))],
          (x.1.streams 7).state = x.2) →
        ts.map connectedEmissions
          = [(worldOf connectingStream, (1 : Int)), (worldOf streamingStream, (3 : Int))].map
              (fun x => [decide (x.2 ≥ listedOrder.Streaming)])) :=
  connectedChanged_every_event true listedOrder boundItem 7 rfl (by decide) _

/-- C7: with a stream bound whose current frame is null, paint fills the destination rectangle
once and does nothing else, whatever the acceleration setting and the paint engine: no OpenGL
call, no native painting, and the members (texture name and last uploaded address among them)
are left as they were. -/
theorem paint_null_frame (dbg : Bool) (engine : PaintEngineType) (rect : QRect) (newName : Nat)
    (s : State) (w : World) (p : Nat) (hb : s.m_stream = some p)
    (hf : (w.streams p).currentFrame = none) :
    ∃ s1 t, paint dbg engine rect newName s w = some (s1, t) ∧
      painterCalls t = [.fillRect rect .black] ∧ glCalls t = [] ∧ t.length = 1 ∧
      s1 = s ∧ s1.m_texId = s.m_texId ∧ s1.m_texDataPtr = s.m_texDataPtr := by
  refine ⟨s, [.painter (.fillRect rect .black)], ?_, rfl, rfl, rfl, rfl, rfl, rfl⟩
  simp [paint, hb, hf]

theorem paint_null_frame_witness :
    ∃ s1 t, paint true .OpenGL2 ⟨0, 0, 320, 240⟩ 5 { boundItem with m_texId := 3 }
        (worldOf connectingStream) = some (s1, t) ∧
      painterCalls t = [.fillRect ⟨0, 0, 320, 240⟩ .black] ∧ glCalls t = [] ∧ t.length = 1 ∧
      s1 = { boundItem with m_texId := 3 } ∧
      s1.m_texId = ({ boundItem with m_texId := 3 } : State).m_texId ∧
      s1.m_texDataPtr = ({ boundItem with m_texId := 3 } : State).m_texDataPtr :=
  paint_null_frame true .OpenGL2 ⟨0, 0, 320, 240⟩ 5 { boundItem with m_texId := 3 }
    (worldOf connectingStream) 7 rfl rfl

/-- C8: with a non-null frame, paint takes the accelerated path exactly when acceleration is
enabled and the paint engine is OpenGL2.  On that path native painting is begun once and ended
once, every OpenGL call lies between the two, the texture named by m_texId is bound and holds
the current frame, and one triangle fan of four vertices is drawn.  Otherwise the frame is drawn
onto the destination rectangle with Source composition between save and restore, no OpenGL call
is made and the members are left as they were. -/
theorem paint_path (dbg : Bool) (engine : PaintEngineType) (rect : QRect) (newName : Nat)
    (s : State) (w : World) (p : Nat) (frame : QImageData) (hb : s.m_stream = some p)
    (hf : (w.streams p).currentFrame = some frame) (hname : dbg = true → newName ≠ 0) :
    ∃ s1 t, paint dbg engine rect newName s w = some (s1, t) ∧
      (Effect.painter .beginNativePainting ∈ t ↔
        (s.m_useAdvancedGL = true ∧ engine = .OpenGL2)) ∧
      ((s.m_useAdvancedGL = true ∧ engine = .OpenGL2) →
        painterCalls t = [.beginNativePainting, .endNativePainting] ∧
        t.getLast? = some (.painter .endNativePainting) ∧
        glCalls (t.takeWhile (fun x => x != Effect.painter .beginNativePainting)) = [] ∧
        GLCall.glBindTexture .GL_TEXTURE_2D s1.m_texId ∈ glCalls t ∧
        s1.m_texDataPtr = frame.constBits ∧
        (glCalls t).count (.glDrawArrays .GL_TRIANGLE_FAN 0 4) = 1) ∧
      (¬ (s.m_useAdvancedGL = true ∧ engine = .OpenGL2) →
        t = [.painter .save, .painter (.setCompositionMode .CompositionMode_Source),
             .painter (.drawImage rect frame), .painter .restore] ∧
        glCalls t = [] ∧ s1 = s) := by
  by_cases hacc : s.m_useAdvancedGL = true ∧ engine = .OpenGL2
  · obtain ⟨h1, h2⟩ := hacc
    by_cases htex : s.m_texId = 0
    · have hn : ¬ (dbg = true ∧ newName = 0) := fun h => hname h.1 h.2
      refine ⟨_, _, by simp only [paint, hb, hf, h1, h2, htex]; simp [hn]; exact ⟨rfl, rfl⟩, ?_, ?_, ?_⟩
      · simp [h1, h2]
      · intro _
        refine ⟨?_, ?_, ?_, ?_, ?_, ?_⟩
        · by_cases hc : s.c = 0 <;> simp [painterCalls, createTexture, drawQuad, hc]
        · by_cases hc : s.c = 0 <;> simp [createTexture, drawQuad, hc]
        · by_cases hc : s.c = 0 <;> simp [glCalls, List.takeWhile, hc]
        · by_cases hc : s.c = 0 <;> simp [glCalls, createTexture, drawQuad, hc]
        · rfl
        · by_cases hc : s.c = 0 <;> simp [glCalls, createTexture, drawQuad, hc]
      · intro h; exact absurd ⟨h1, h2⟩ h
    · by_cases hbits : frame.constBits = s.m_texDataPtr
      · refine ⟨_, _, by simp only [paint, hb, hf, h1, h2]; simp [htex, hbits]; exact ⟨rfl, rfl⟩, ?_, ?_, ?_⟩
        · simp [h1, h2]
        · intro _
          refine ⟨?_, ?_, ?_, ?_, ?_, ?_⟩
          · by_cases hc : s.c = 0 <;> simp [painterCalls, drawQuad, hc]
          · by_cases hc : s.c = 0 <;> simp [createTexture, drawQuad, hc]
          · by_cases hc : s.c = 0 <;> simp [glCalls, List.takeWhile, hc]
          · by_cases hc : s.c = 0 <;> simp [glCalls, drawQuad, hc]
          · exact hbits.symm
          · by_cases hc : s.c = 0 <;> simp [glCalls, drawQuad, hc]
        · intro h; exact absurd ⟨h1, h2⟩ h
      · refine ⟨_, _, by simp only [paint, hb, hf, h1, h2]; simp [htex, hbits]; exact ⟨rfl, rfl⟩, ?_, ?_, ?_⟩
        · simp [h1, h2]
        · intro _
          refine ⟨?_, ?_, ?_, ?_, ?_, ?_⟩
          · by_cases hc : s.c = 0 <;> simp [painterCalls, drawQuad, hc]
          · by_cases hc : s.c = 0 <;> simp [createTexture, drawQuad, hc]
          · by_cases hc : s.c = 0 <;> simp [glCalls, List.takeWhile, hc]
          · by_cases hc : s.c = 0 <;> simp [glCalls, drawQuad, hc]
          · rfl
          · by_cases hc : s.c = 0 <;> simp [glCalls, drawQuad, hc]
        · intro h; exact absurd ⟨h1, h2⟩ h
  · have hcond : (s.m_useAdvancedGL && engine == PaintEngineType.OpenGL2) = false := by
      rw [Bool.and_eq_false_iff]
      by_cases h1 : s.m_useAdvancedGL = true
      · right
        have : engine ≠ .OpenGL2 := fun h => hacc ⟨h1, h⟩
        simpa using this
      · left; simpa using h1
    refine ⟨s, _, by simp only [paint, hb, hf, hcond]; rfl, ?_, ?_, ?_⟩
    · simp [hacc]
    · intro h; exact absurd h hacc
    · intro _; exact ⟨rfl, rfl, rfl⟩

theorem paint_path_witness :
    ∃ s1 t, paint true .OpenGL2 sampleRect 5 boundItem (worldOf streamingStream) = some (s1, t) ∧
      (Effect.painter .beginNativePainting ∈ t ↔
        (boundItem.m_useAdvancedGL = true ∧ PaintEngineType.OpenGL2 = .OpenGL2)) ∧
      ((boundItem.m_useAdvancedGL = true ∧ PaintEngineType.OpenGL2 = .OpenGL2) →
        painterCalls t = [.beginNativePainting, .endNativePainting] ∧
        t.getLast? = some (.painter .endNativePainting) ∧
        glCalls (t.takeWhile (fun x => x != Effect.painter .beginNativePainting)) = [] ∧
        GLCall.glBindTexture .GL_TEXTURE_2D s1.m_texId ∈ glCalls t ∧
        s1.m_texDataPtr = (⟨640, 480, 4096⟩ : QImageData).constBits ∧
        (glCalls t).count (.glDrawArrays .GL_TRIANGLE_FAN 0 4) = 1) ∧
      (¬ (boundItem.m_useAdvancedGL = true ∧ PaintEngineType.OpenGL2 = .OpenGL2) →
        t = [.painter .save, .painter (.setCompositionMode .CompositionMode_Source),
             .painter (.drawImage sampleRect ⟨640, 480, 4096⟩), .painter .restore] ∧
        glCalls t = [] ∧ s1 = boundItem) :=
  paint_path true .OpenGL2 sampleRect 5 boundItem (worldOf streamingStream) 7 ⟨640, 480, 4096⟩
    rfl rfl (fun _ => by decide)

/-- C10 (as stated, refuted): the item paints its first frame on the accelerated path and makes
the texture named 5.  The texture environment mode it sets is GL_MODULATE, no call sets
GL_REPLACE, and the parameters set are not only the filters and the wrap modes: the texture
priority is set as well. -/
theorem texture_environment_is_modulate :
    ∃ s1 t, paint true .OpenGL2 sampleRect 5 boundItem (worldOf streamingStream) = some (s1, t) ∧
      GLCall.glGenTextures 1 5 ∈ glCalls t ∧
      GLCall.glTexEnvf .GL_TEXTURE_ENV .GL_TEXTURE_ENV_MODE (.enumerator .GL_MODULATE)
        ∈ glCalls t ∧
      GLCall.glTexEnvf .GL_TEXTURE_ENV .GL_TEXTURE_ENV_MODE (.enumerator .GL_REPLACE)
        ∉ glCalls t ∧
      GLCall.glTexParameterf .GL_TEXTURE_2D .GL_TEXTURE_PRIORITY (.literal 1) ∈ glCalls t := by
  refine ⟨_, _, rfl, ?_, ?_, ?_, ?_⟩ <;> decide

/-- C10 (amended): whenever paint creates a texture, the OpenGL calls from generating the name
to the full-image upload are: generate, bind, then exactly six parameter calls (texture priority
1, texture environment mode GL_MODULATE, linear magnification and minification filters,
clamp-to-edge wrapping on both axes), then the upload; paint makes no other parameter call. -/
theorem texture_creation_parameters (dbg : Bool) (engine : PaintEngineType) (rect : QRect)
    (newName : Nat) (s : State) (w : World) (s1 : State) (t : List Effect) (n k : Nat)
    (h : paint dbg engine rect newName s w = some (s1, t))
    (hg : GLCall.glGenTextures k n ∈ glCalls t) :
    k = 1 ∧ n = newName ∧ s1.m_texId = newName ∧
    ∃ (frame : QImageData) (pre post : List GLCall), glCalls t = pre ++
        [.glGenTextures 1 newName,
         .glBindTexture .GL_TEXTURE_2D newName,
         .glTexParameterf .GL_TEXTURE_2D .GL_TEXTURE_PRIORITY (.literal 1),
         .glTexEnvf .GL_TEXTURE_ENV .GL_TEXTURE_ENV_MODE (.enumerator .GL_MODULATE),
         .glTexParameterf .GL_TEXTURE_2D .GL_TEXTURE_MAG_FILTER (.enumerator .GL_LINEAR),
         .glTexParameterf .GL_TEXTURE_2D .GL_TEXTURE_MIN_FILTER (.enumerator .GL_LINEAR),
         .glTexParameterf .GL_TEXTURE_2D .GL_TEXTURE_WRAP_S (.enumerator .GL_CLAMP_TO_EDGE),
         .glTexParameterf .GL_TEXTURE_2D .GL_TEXTURE_WRAP_T (.enumerator .GL_CLAMP_TO_EDGE),
         .glTexImage2D .GL_TEXTURE_2D 0 .GL_RGBA8 frame.width frame.height 0 .GL_BGRA
           .GL_UNSIGNED_BYTE frame.constBits] ++ post ∧
      paramCalls pre = [] ∧ paramCalls post = [] := by
  cases hm : s.m_stream with
  | none =>
    simp only [paint, hm, Option.some.injEq, Prod.mk.injEq] at h
    obtain ⟨_, rfl⟩ := h; simp [glCalls] at hg
  | some p =>
    cases hfr : (w.streams p).currentFrame with
    | none =>
      simp only [paint, hm, hfr, Option.some.injEq, Prod.mk.injEq] at h
      obtain ⟨_, rfl⟩ := h; simp [glCalls] at hg
    | some frame =>
      simp only [paint, hm, hfr] at h
      split at h
      · split at h
        · split at h
          · simp only [Option.some.injEq, Prod.mk.injEq] at h
            obtain ⟨_, rfl⟩ := h
            by_cases hc : s.c = 0 <;> simp [glCalls, drawQuad, hc] at hg
          · simp only [Option.some.injEq, Prod.mk.injEq] at h
            obtain ⟨_, rfl⟩ := h
            by_cases hc : s.c = 0 <;> simp [glCalls, drawQuad, hc] at hg
        · split at h
          · simp at h
          · simp only [Option.some.injEq, Prod.mk.injEq] at h
            obtain ⟨rfl, rfl⟩ := h
            have hkn : k = 1 ∧ n = newName := by
              by_cases hc : s.c = 0 <;> simpa [glCalls, drawQuad, createTexture, hc] using hg
            refine ⟨hkn.1, hkn.2, rfl, frame, [.glEnable .GL_TEXTURE_2D], glCalls (drawQuad rect),
              ?_, rfl, rfl⟩
            by_cases hc : s.c = 0 <;> simp [glCalls, createTexture, hc]
      · simp only [Option.some.injEq, Prod.mk.injEq] at h
        obtain ⟨_, rfl⟩ := h
        simp [glCalls] at hg

theorem texture_creation_parameters_witness :
    (1 : Nat) = 1 ∧ (5 : Nat) = 5 ∧
    ({ boundItem with c := 0, m_texId := 5, m_texDataPtr := 4096 } : State).m_texId = 5 ∧
    ∃ (frame : QImageData) (pre post : List GLCall),
      glCalls ([Effect.qDebug ["Using advanced OpenGL output"], .painter .beginNativePainting,
          .gl (.glEnable .GL_TEXTURE_2D)] ++ createTexture 5 ⟨640, 480, 4096⟩ ++
          drawQuad sampleRect) = pre ++
        [.glGenTextures 1 5,
         .glBindTexture .GL_TEXTURE_2D 5,
         .glTexParameterf .GL_TEXTURE_2D .GL_TEXTURE_PRIORITY (.literal 1),
         .glTexEnvf .GL_TEXTURE_ENV .GL_TEXTURE_ENV_MODE (.enumerator .GL_MODULATE),
         .glTexParameterf .GL_TEXTURE_2D .GL_TEXTURE_MAG_FILTER (.enumerator .GL_LINEAR),
         .glTexParameterf .GL_TEXTURE_2D .GL_TEXTURE_MIN_FILTER (.enumerator .GL_LINEAR),
         .glTexParameterf .GL_TEXTURE_2D .GL_TEXTURE_WRAP_S (.enumerator .GL_CLAMP_TO_EDGE),
         .glTexParameterf .GL_TEXTURE_2D .GL_TEXTURE_WRAP_T (.enumerator .GL_CLAMP_TO_EDGE),
         .glTexImage2D .GL_TEXTURE_2D 0 .GL_RGBA8 frame.width frame.height 0 .GL_BGRA
           .GL_UNSIGNED_BYTE frame.constBits] ++ post ∧
      paramCalls pre = [] ∧ paramCalls post = [] :=
  texture_creation_parameters true .OpenGL2 sampleRect 5 boundItem (worldOf streamingStream)
    { boundItem with c := 0, m_texId := 5, m_texDataPtr := 4096 } _ 5 1 rfl (by decide)

/-- The accelerated path of paint as one equation. -/
theorem paint_accelerated (dbg : Bool) (rect : QRect) (newName : Nat) (s : State) (w : World)
    (p : Nat) (frame : QImageData) (hb : s.m_stream = some p)
    (hacc : s.m_useAdvancedGL = true) (hf : (w.streams p).currentFrame = some frame) :
    paint dbg .OpenGL2 rect newName s w =
      if s.m_texId ≠ 0 then
        some ({ s with c := 0, m_texDataPtr := frame.constBits },
          (if s.c ≠ 0 then [Effect.qDebug ["Using advanced OpenGL output"]] else []) ++
            [.painter .beginNativePainting, .gl (.glEnable .GL_TEXTURE_2D),
             .gl (.glBindTexture .GL_TEXTURE_2D s.m_texId)] ++
            (if frame.constBits ≠ s.m_texDataPtr then
              [Effect.gl (.glTexSubImage2D .GL_TEXTURE_2D 0 0 0 frame.width frame.height .GL_BGRA
                .GL_UNSIGNED_BYTE frame.constBits)] else []) ++ drawQuad rect)
      else if dbg = true ∧ newName = 0 then none
      else
        some ({ s with c := 0, m_texId := newName, m_texDataPtr := frame.constBits },
          (if s.c ≠ 0 then [Effect.qDebug ["Using advanced OpenGL output"]] else []) ++
            [.painter .beginNativePainting, .gl (.glEnable .GL_TEXTURE_2D)] ++
            createTexture newName frame ++ drawQuad rect) := by
  simp only [paint, hb, hf, hacc]
  by_cases htex : s.m_texId = 0
  · by_cases hn : dbg = true ∧ newName = 0
    · simp [htex, hn]
    · simp only [not_and] at hn
      simp [htex, hn]
  · by_cases hbits : frame.constBits = s.m_texDataPtr
    · simp [htex, hbits]
    · simp [htex, hbits]

/-- One accelerated paint call of a non-null frame, from a state that tracks the previous call. -/
theorem paint_upload_step (dbg : Bool) (rect : QRect) (newName : Nat) (s : State) (w : World)
    (p : Nat) (frame : QImageData) (previous : Option Nat) (hb : s.m_stream = some p)
    (hacc : s.m_useAdvancedGL = true) (hf : (w.streams p).currentFrame = some frame)
    (hname : newName ≠ 0) (htr : TextureTracks s previous) :
    ∃ s1 t, paint dbg .OpenGL2 rect newName s w = some (s1, t) ∧ s1.m_stream = some p ∧
      s1.m_useAdvancedGL = true ∧ TextureTracks s1 (some frame.constBits) ∧
      uploadCounts t :: specUploads (some frame.constBits) [] =
        specUploads previous [frame.constBits] := by
  rw [paint_accelerated dbg rect newName s w p frame hb hacc hf]
  cases previous with
  | none =>
    have htex : s.m_texId = 0 := htr
    simp only [htex, ne_eq, not_true_eq_false, if_false, hname, and_false]
    refine ⟨_, _, rfl, hb, hacc, ⟨hname, rfl⟩, ?_⟩
    by_cases hc : s.c = 0 <;>
      simp [uploadCounts, glCalls, createTexture, drawQuad, specUploads, hc]
  | some b =>
    obtain ⟨htex, hptr⟩ := htr
    subst hptr
    simp only [ne_eq, htex, not_false_eq_true, if_true]
    refine ⟨_, _, rfl, hb, hacc, ⟨htex, rfl⟩, ?_⟩
    by_cases hbits : frame.constBits = s.m_texDataPtr
    · by_cases hc : s.c = 0 <;>
        simp [uploadCounts, glCalls, drawQuad, specUploads, hc, hbits]
    · by_cases hc : s.c = 0 <;>
        simp [uploadCounts, glCalls, drawQuad, specUploads, hc, hbits]

/-- A run of accelerated paint calls of non-null frames, from a state that tracks the previous
call. -/
theorem paint_upload_run (dbg : Bool) (e : StateEnum) (p : Nat) :
    ∀ (calls : List (World × QRect × Nat)) (frames : List QImageData) (s : State)
      (previous : Option Nat),
      s.m_stream = some p → s.m_useAdvancedGL = true → TextureTracks s previous →
      calls.map (fun c => (c.1.streams p).currentFrame) = frames.map some →
      (∀ c ∈ calls, c.2.2 ≠ 0) →
      ∃ s1 ts, runEach dbg e (calls.map fun c => (c.1, Op.paint .OpenGL2 c.2.1 c.2.2)) s
          = some (s1, ts) ∧
        ts.map uploadCounts = specUploads previous (frames.map (·.constBits))
  | [], frames, s, previous, _, _, _, hframes, _ => by
    cases frames with
    | nil => exact ⟨s, [], rfl, by cases previous <;> rfl⟩
    | cons f fs => simp at hframes
  | c :: rest, frames, s, previous, hb, hacc, htr, hframes, hname => by
    cases frames with
    | nil => simp at hframes
    | cons f fs =>
      simp only [List.map_cons, List.cons.injEq] at hframes
      obtain ⟨hf, hrest⟩ := hframes
      obtain ⟨s1, t, hp, hb1, hacc1, htr1, hcount⟩ :=
        paint_upload_step dbg c.2.1 c.2.2 s c.1 p f previous hb hacc hf
          (hname c (List.mem_cons_self _ _)) htr
      obtain ⟨s2, ts, hrun, hts⟩ :=
        paint_upload_run dbg e p rest fs s1 (some f.constBits) hb1 hacc1 htr1 hrest
          (fun x hx => hname x (List.mem_cons_of_mem _ hx))
      refine ⟨s2, t :: ts, ?_, ?_⟩
      · simp only [List.map_cons, runEach, step, hp, hrun]
      · simp only [List.map_cons, hts]
        have h1 : uploadCounts t = (specUploads previous [f.constBits]).head! := by
          rw [← hcount]; rfl
        cases previous <;> simp [specUploads] at h1 ⊢ <;> exact h1

/-- C2: accelerated paint calls of non-null frames, starting with no texture and with nothing
in between that invalidates the texture, do what the specification prescribes: the first call
makes one glGenTextures and one glTexImage2D, and each later call makes exactly one
glTexSubImage2D if the buffer address of its frame differs from that of the previous call and
no upload call at all if it does not; no later call generates or allocates again.  (The texture
names the driver returns are non-zero, and the frames need not even have equal dimensions.) -/
theorem paint_sequence_uploads (dbg : Bool) (e : StateEnum) (p : Nat) (s : State)
    (calls : List (World × QRect × Nat)) (frames : List QImageData)
    (hb : s.m_stream = some p) (hacc : s.m_useAdvancedGL = true) (htex : s.m_texId = 0)
    (hframes : calls.map (fun c => (c.1.streams p).currentFrame) = frames.map some)
    (hname : ∀ c ∈ calls, c.2.2 ≠ 0) :
    ∃ s1 ts, runEach dbg e (calls.map fun c => (c.1, Op.paint .OpenGL2 c.2.1 c.2.2)) s
        = some (s1, ts) ∧
      ts.map uploadCounts = specUploads none (frames.map (·.constBits)) :=
  paint_upload_run dbg e p calls frames s none hb hacc htex hframes hname

theorem paint_sequence_uploads_witness :
    ∃ s1 ts, runEach true listedOrder
        (samplePaints.map fun c => (c.1, Op.paint .OpenGL2 c.2.1 c.2.2)) boundItem
        = some (s1, ts) ∧
      ts.map uploadCounts = [(1, 1, 0), (0, 0, 0), (0, 0, 1)] :=
  paint_sequence_uploads true listedOrder 7 boundItem samplePaints sampleFrames rfl rfl rfl rfl
    (by decide)

theorem replay_append (t1 t2 : List Effect) :
    ∀ live, replay live (t1 ++ t2) = (replay live t1).bind (fun l => replay l t2) := by
  induction t1 with
  | nil => intro live; rfl
  | cons x t ih =>
    intro live
    cases x with
    | gl c =>
      cases c <;> simp only [List.cons_append, replay, List.append_eq, ih]
      · split <;> simp
      · split <;> simp
    | _ => simp only [List.cons_append, replay, List.append_eq, ih]

theorem replay_skip (t : List Effect) (h : ∀ x ∈ t, x.isTextureCall = false) :
    ∀ live, replay live t = some live := by
  induction t with
  | nil => intro live; rfl
  | cons x t ih =>
    intro live
    have hx := h x (List.mem_cons_self _ _)
    have ht := ih (fun y hy => h y (List.mem_cons_of_mem _ hy))
    cases x with
    | gl c => cases c <;> simp_all [replay, Effect.isTextureCall]
    | _ => simp only [replay, ht]

theorem liveAfter_of_replay (t : List Effect) :
    ∀ live l, replay live t = some l → liveAfter live t = l ∧ (live.length ≤ 1 → l.length ≤ 1) := by
  induction t with
  | nil => intro live l h; simp only [replay, Option.some.injEq] at h; subst h; exact ⟨rfl, id⟩
  | cons x t ih =>
    intro live l h
    cases x with
    | gl c =>
      cases c with
      | glGenTextures k n =>
        simp only [replay] at h
        split at h
        · rename_i hl
          subst hl
          obtain ⟨h1, h2⟩ := ih [n] l h
          exact ⟨by simpa [liveAfter] using h1, fun _ => h2 (by simp)⟩
        · simp at h
      | glDeleteTextures k n =>
        simp only [replay] at h
        split at h
        · rename_i hl
          subst hl
          obtain ⟨h1, h2⟩ := ih [] l h
          exact ⟨by simpa [liveAfter] using h1, fun _ => h2 (by simp)⟩
        · simp at h
      | _ => simp only [replay] at h; simpa [liveAfter] using ih live l h
    | _ => simp only [replay] at h; simpa [liveAfter] using ih live l h

theorem Calm.refl_of (s s1 : State) (t : List Effect) (h1 : s1.m_texId = s.m_texId)
    (h2 : s1.m_useAdvancedGL = s.m_useAdvancedGL) (ht : ∀ x ∈ t, x.isTextureCall = false) :
    Calm s t s1 where
  accel := by unfold AccelInv; rw [h1, h2]; exact id
  replayed := by rw [replay_skip t ht]; simp [texLive, h1]
  noGen := by
    intro k n hmem
    have := ht _ hmem
    simp [Effect.isTextureCall] at this

theorem Calm.trans {s s1 s2 : State} {t1 t2 : List Effect} (h1 : Calm s t1 s1)
    (h2 : Calm s1 t2 s2) : Calm s (t1 ++ t2) s2 where
  accel := fun h => h2.accel (h1.accel h)
  replayed := by rw [replay_append, h1.replayed]; exact h2.replayed
  noGen := by
    intro k n hmem
    rcases List.mem_append.mp hmem with h | h
    · exact h1.noGen k n h
    · exact h2.noGen k n h

theorem updateFrameSize_eq (s : State) (w : World) :
    updateFrameSize s w =
      ({ s with m_texId := 0 },
        (if s.m_texId ≠ 0 then [Effect.gl (.glDeleteTextures 1 s.m_texId)] else []) ++
          [.emit (.frameSizeChanged (frameSize s w))]) := by
  by_cases h : s.m_texId = 0
  · simp only [updateFrameSize, h, ne_eq, not_true_eq_false, if_false, List.nil_append]
    congr 1
    cases s; simp_all
  · simp only [updateFrameSize, h, ne_eq, not_false_eq_true, if_true]
    rfl

theorem updateSettings_eq (s : State) (w : World) :
    updateSettings s w =
      ({ s with m_useAdvancedGL := !w.disableAdvancedOpengl,
                m_texId := if w.disableAdvancedOpengl then 0 else s.m_texId },
        if w.disableAdvancedOpengl = true ∧ s.m_texId ≠ 0 then
          [Effect.gl (.glDeleteTextures 1 s.m_texId)] else []) := by
  by_cases h : s.m_texId = 0 <;> cases hd : w.disableAdvancedOpengl <;>
    simp [updateSettings, hd, h]

theorem updateFrameSize_calm (s : State) (w : World) :
    Calm s (updateFrameSize s w).2 (updateFrameSize s w).1 ∧
      (updateFrameSize s w).1.m_stream = s.m_stream ∧
      (updateFrameSize s w).1.connections = s.connections ∧
      (updateFrameSize s w).1.m_texId = 0 := by
  rw [updateFrameSize_eq]
  refine ⟨⟨fun _ _ => rfl, ?_, ?_⟩, rfl, rfl, rfl⟩
  · by_cases h : s.m_texId = 0 <;> simp [replay, texLive, h]
  · by_cases h : s.m_texId = 0 <;> simp [h]

theorem updateSettings_calm (s : State) (w : World) :
    Calm s (updateSettings s w).2 (updateSettings s w).1 ∧
      (updateSettings s w).1.m_stream = s.m_stream ∧
      (updateSettings s w).1.connections = s.connections := by
  rw [updateSettings_eq]
  refine ⟨⟨?_, ?_, ?_⟩, rfl, rfl⟩
  · cases hd : w.disableAdvancedOpengl <;> simp [AccelInv]
  · by_cases h : s.m_texId = 0 <;> cases hd : w.disableAdvancedOpengl <;>
      simp [replay, texLive, h]
  · by_cases h : s.m_texId = 0 <;> cases hd : w.disableAdvancedOpengl <;> simp [h]

theorem streamStateChanged_calm (dbg : Bool) (e : StateEnum) (state : Int) (s s1 : State)
    (w : World) (t : List Effect) (h : streamStateChanged dbg e state s w = some (s1, t)) :
    s1 = s ∧ ∀ x ∈ t, x.isTextureCall = false := by
  unfold streamStateChanged at h
  split at h
  · simp at h
  · cases hm : s.m_stream with
    | none =>
      simp only [hm] at h
      split at h
      · simp at h
      · simp only [Option.some.injEq, Prod.mk.injEq] at h
        obtain ⟨rfl, rfl⟩ := h
        simp [Effect.isTextureCall]
    | some p =>
      simp only [hm] at h
      split at h
      · simp only [Option.some.injEq, Prod.mk.injEq] at h
        obtain ⟨rfl, rfl⟩ := h
        simp [Effect.isTextureCall]
      · simp only [Option.some.injEq, Prod.mk.injEq] at h
        obtain ⟨rfl, rfl⟩ := h
        simp [Effect.isTextureCall]

theorem invoke_calm (dbg : Bool) (e : StateEnum) (w : World) (m : Method) (ev : SignalEvent)
    (s s1 : State) (t : List Effect) (h : invoke dbg e w m ev s = some (s1, t)) :
    Calm s t s1 ∧ s1.m_stream = s.m_stream ∧ s1.connections = s.connections := by
  have hnil : Calm s [] s ∧ s.m_stream = s.m_stream ∧ s.connections = s.connections :=
    ⟨Calm.refl_of s s [] rfl rfl (by simp), rfl, rfl⟩
  cases m with
  | updateSettings =>
    have h1 : some (updateSettings s w) = some (s1, t) := by cases ev <;> exact h
    simp only [Option.some.injEq] at h1
    have := updateSettings_calm s w
    rw [h1] at this
    exact this
  | updateFrame =>
    have h1 : some (updateFrame s) = some (s1, t) := by cases ev <;> exact h
    simp only [updateFrame, Option.some.injEq, Prod.mk.injEq] at h1
    obtain ⟨rfl, rfl⟩ := h1
    exact ⟨Calm.refl_of s s _ rfl rfl (by simp [Effect.isTextureCall]), rfl, rfl⟩
  | updateFrameSize =>
    have h1 : some (updateFrameSize s w) = some (s1, t) := by cases ev <;> exact h
    simp only [Option.some.injEq] at h1
    have := updateFrameSize_calm s w
    rw [h1] at this
    exact ⟨this.1, this.2.1, this.2.2.1⟩
  | streamStateChanged =>
    cases ev with
    | stateChanged state =>
      obtain ⟨rfl, ht⟩ := streamStateChanged_calm dbg e state s s1 w t h
      exact ⟨Calm.refl_of s1 s1 t rfl rfl ht, rfl, rfl⟩
    | _ =>
      simp only [invoke, Option.some.injEq, Prod.mk.injEq] at h
      obtain ⟨rfl, rfl⟩ := h
      exact hnil
  | pausedChanged =>
    cases ev with
    | pausedChanged b =>
      simp only [invoke, Option.some.injEq, Prod.mk.injEq] at h
      obtain ⟨rfl, rfl⟩ := h
      exact ⟨Calm.refl_of s s _ rfl rfl (by simp [Effect.isTextureCall]), rfl, rfl⟩
    | _ =>
      simp only [invoke, Option.some.injEq, Prod.mk.injEq] at h
      obtain ⟨rfl, rfl⟩ := h
      exact hnil

theorem invokeAll_calm (dbg : Bool) (e : StateEnum) (w : World) (ev : SignalEvent) :
    ∀ (ms : List Method) (s s1 : State) (t : List Effect),
      invokeAll dbg e w ev ms s = some (s1, t) →
      Calm s t s1 ∧ s1.m_stream = s.m_stream ∧ s1.connections = s.connections
  | [], s, s1, t, h => by
    simp only [invokeAll, Option.some.injEq, Prod.mk.injEq] at h
    obtain ⟨rfl, rfl⟩ := h
    exact ⟨Calm.refl_of s s [] rfl rfl (by simp), rfl, rfl⟩
  | m :: ms, s, s1, t, h => by
    simp only [invokeAll] at h
    cases h1 : invoke dbg e w m ev s with
    | none => simp [h1] at h
    | some r1 =>
      obtain ⟨sa, ta⟩ := r1
      simp only [h1] at h
      cases h2 : invokeAll dbg e w ev ms sa with
      | none => simp [h2] at h
      | some r2 =>
        obtain ⟨sb, tb⟩ := r2
        simp only [h2, Option.some.injEq, Prod.mk.injEq] at h
        obtain ⟨rfl, rfl⟩ := h
        obtain ⟨c1, m1, k1⟩ := invoke_calm dbg e w m ev s sa ta h1
        obtain ⟨c2, m2, k2⟩ := invokeAll_calm dbg e w ev ms sa sb tb h2
        exact ⟨c1.trans c2, m2.trans m1, k2.trans k1⟩

theorem dispatch_calm (dbg : Bool) (e : StateEnum) (w : World) (sender : Sender)
    (ev : SignalEvent) (s s1 : State) (t : List Effect)
    (h : dispatch dbg e w sender ev s = some (s1, t)) :
    Calm s t s1 ∧ s1.m_stream = s.m_stream ∧ s1.connections = s.connections :=
  invokeAll_calm dbg e w ev _ s s1 t h

theorem deliverAll_calm (dbg : Bool) (e : StateEnum) (sender : Sender) :
    ∀ (evs : List (World × SignalEvent)) (s s1 : State) (t : List Effect),
      deliverAll dbg e sender evs s = some (s1, t) →
      Calm s t s1 ∧ s1.m_stream = s.m_stream ∧ s1.connections = s.connections
  | [], s, s1, t, h => by
    simp only [deliverAll, Option.some.injEq, Prod.mk.injEq] at h
    obtain ⟨rfl, rfl⟩ := h
    exact ⟨Calm.refl_of s s [] rfl rfl (by simp), rfl, rfl⟩
  | (w, ev) :: evs, s, s1, t, h => by
    simp only [deliverAll] at h
    cases h1 : dispatch dbg e w sender ev s with
    | none => simp [h1] at h
    | some r1 =>
      obtain ⟨sa, ta⟩ := r1
      simp only [h1] at h
      cases h2 : deliverAll dbg e sender evs sa with
      | none => simp [h2] at h
      | some r2 =>
        obtain ⟨sb, tb⟩ := r2
        simp only [h2, Option.some.injEq, Prod.mk.injEq] at h
        obtain ⟨rfl, rfl⟩ := h
        obtain ⟨c1, m1, k1⟩ := dispatch_calm dbg e w sender ev s sa ta h1
        obtain ⟨c2, m2, k2⟩ := deliverAll_calm dbg e sender evs sa sb tb h2
        exact ⟨c1.trans c2, m2.trans m1, k2.trans k1⟩

theorem setStream_same (dbg : Bool) (e : StateEnum) (r : StartReaction) (s : State) :
    setStream dbg e s.m_stream r s = some (s, []) := by
  simp [setStream]

theorem setStream_bind (dbg : Bool) (e : StateEnum) (b : Nat) (r : StartReaction) (s : State)
    (hne : some b ≠ s.m_stream) :
    setStream dbg e (some b) r s =
      match deliverAll dbg e (.stream b) r.emissions (rebound s b) with
      | none => none
      | some (s4, t3) =>
        some ((updateFrameSize s4 r.after).1,
          disconnectTrace s ++ (streamConnections b).map Effect.connect ++ [.start b] ++ t3 ++
            [.emit (.pausedChanged (isPaused s4 r.after)),
             .emit (.connectedChanged (isConnected e s4 r.after))] ++
            (updateFrameSize s4 r.after).2 ++ [.update]) := by
  have hstate : ({ (match s.m_stream with
        | some a => { s with connections := s.connections.filter (fun k => k.sender ≠ .stream a) }
        | none => s) with m_stream := some b } : State).connections = disconnected s := by
    unfold disconnected; cases s.m_stream <;> rfl
  have hreb : rebound s b =
      { ({ (match s.m_stream with
          | some a => { s with connections := s.connections.filter (fun k => k.sender ≠ .stream a) }
          | none => s) with m_stream := some b } : State) with
        connections := ({ (match s.m_stream with
          | some a => { s with connections := s.connections.filter (fun k => k.sender ≠ .stream a) }
          | none => s) with m_stream := some b } : State).connections ++ streamConnections b } := by
    unfold rebound disconnected; cases s.m_stream <;> rfl
  simp only [setStream, hne, if_false, updateFrame]
  rw [← hreb]
  cases deliverAll dbg e (.stream b) r.emissions (rebound s b) with
  | none => rfl
  | some x => cases x; simp [disconnectTrace]

theorem setStream_unbind (dbg : Bool) (e : StateEnum) (r : StartReaction) (s : State)
    (hne : none ≠ s.m_stream) :
    setStream dbg e none r s =
      some ((updateFrameSize (unbound s) r.after).1,
        disconnectTrace s ++ [.emit (.errorTextChanged (.tr "No<br>Video")),
          .emit (.pausedChanged false), .emit (.connectedChanged false)] ++
          (updateFrameSize (unbound s) r.after).2 ++ [.update]) := by
  have hunb : unbound s =
      { (match s.m_stream with
          | some a => { s with connections := s.connections.filter (fun k => k.sender ≠ .stream a) }
          | none => s) with m_stream := none } := by
    unfold unbound disconnected; cases s.m_stream <;> rfl
  simp only [setStream, hne, if_false, updateFrame]
  rw [← hunb]
  simp [disconnectTrace, isPaused, isConnected, unbound]

theorem paint_facts (dbg : Bool) (engine : PaintEngineType) (rect : QRect) (newName : Nat)
    (s s1 : State) (w : World) (t : List Effect)
    (h : paint dbg engine rect newName s w = some (s1, t)) :
    s1.m_stream = s.m_stream ∧ s1.connections = s.connections ∧
      s1.m_useAdvancedGL = s.m_useAdvancedGL ∧
      ((s1.m_texId = s.m_texId ∧ ∀ x ∈ t, x.isTextureCall = false) ∨
       (s.m_texId = 0 ∧ s.m_useAdvancedGL = true ∧ engine = .OpenGL2 ∧ s1.m_texId = newName ∧
          replay [] t = some [newName] ∧
          ∃ p frame, s.m_stream = some p ∧ (w.streams p).currentFrame = some frame)) := by
  cases hm : s.m_stream with
  | none =>
    simp only [paint, hm, Option.some.injEq, Prod.mk.injEq] at h
    obtain ⟨rfl, rfl⟩ := h
    exact ⟨hm, rfl, rfl, Or.inl ⟨rfl, by simp⟩⟩
  | some p =>
    cases hfr : (w.streams p).currentFrame with
    | none =>
      simp only [paint, hm, hfr, Option.some.injEq, Prod.mk.injEq] at h
      obtain ⟨rfl, rfl⟩ := h
      exact ⟨hm, rfl, rfl, Or.inl ⟨rfl, by simp [Effect.isTextureCall]⟩⟩
    | some frame =>
      by_cases hacc : s.m_useAdvancedGL = true ∧ engine = .OpenGL2
      · obtain ⟨h1, h2⟩ := hacc
        subst h2
        rw [paint_accelerated dbg rect newName s w p frame hm h1 hfr] at h
        split at h
        · rename_i htex
          simp only [Option.some.injEq, Prod.mk.injEq] at h
          obtain ⟨rfl, rfl⟩ := h
          refine ⟨hm, rfl, rfl, Or.inl ⟨rfl, ?_⟩⟩
          by_cases hc : s.c = 0 <;> by_cases hb : frame.constBits = s.m_texDataPtr <;>
            simp [drawQuad, Effect.isTextureCall, hc, hb]
        · rename_i htex
          split at h
          · simp at h
          · simp only [Option.some.injEq, Prod.mk.injEq] at h
            obtain ⟨rfl, rfl⟩ := h
            refine ⟨hm, rfl, rfl,
              Or.inr ⟨by simpa using htex, h1, rfl, rfl, ?_, p, frame, rfl, hfr⟩⟩
            by_cases hc : s.c = 0 <;> simp [drawQuad, createTexture, replay, hc]
      · have hcond : (s.m_useAdvancedGL && engine == PaintEngineType.OpenGL2) = false := by
          rw [Bool.and_eq_false_iff]
          by_cases h1 : s.m_useAdvancedGL = true
          · right
            have : engine ≠ .OpenGL2 := fun h => hacc ⟨h1, h⟩
            simpa using this
          · left; simpa using h1
        simp only [paint, hm, hfr, hcond, Option.some.injEq, Prod.mk.injEq] at h
        simp only [Bool.false_eq_true, if_false, Option.some.injEq, Prod.mk.injEq] at h
        obtain ⟨rfl, rfl⟩ := h
        exact ⟨hm, rfl, rfl, Or.inl ⟨rfl, by simp [Effect.isTextureCall]⟩⟩

theorem paint_total (dbg : Bool) (engine : PaintEngineType) (rect : QRect) (newName : Nat)
    (s : State) (w : World) (hname : dbg = true → newName ≠ 0) :
    ∃ r, paint dbg engine rect newName s w = some r := by
  cases hm : s.m_stream with
  | none => exact ⟨(s, []), by simp only [paint, hm]⟩
  | some p =>
    cases hfr : (w.streams p).currentFrame with
    | none => exact ⟨(s, [.painter (.fillRect rect .black)]), by simp only [paint, hm, hfr]⟩
    | some frame =>
      by_cases hacc : s.m_useAdvancedGL = true ∧ engine = .OpenGL2
      · obtain ⟨h1, h2⟩ := hacc
        subst h2
        rw [paint_accelerated dbg rect newName s w p frame hm h1 hfr]
        by_cases htex : s.m_texId = 0
        · have hn : ¬ (dbg = true ∧ newName = 0) := fun h => hname h.1 h.2
          simp [htex, hn]
        · simp [htex]
      · have hcond : (s.m_useAdvancedGL && engine == PaintEngineType.OpenGL2) = false := by
          rw [Bool.and_eq_false_iff]
          by_cases h1 : s.m_useAdvancedGL = true
          · right
            have : engine ≠ .OpenGL2 := fun h => hacc ⟨h1, h⟩
            simpa using this
          · left; simpa using h1
        simp [paint, hm, hfr, hcond]

theorem good_disconnected (s : State) (hg : Good s) :
    disconnected s =
      [{ sender := .bcApp, signal := .settingsChanged, method := .updateSettings }] := by
  unfold Good at hg
  unfold disconnected
  cases hm : s.m_stream with
  | none => simp only [hm] at hg ⊢; exact hg
  | some a => simp only [hm] at hg ⊢; rw [hg]; simp [streamConnections]

theorem good_rebound (s : State) (b : Nat) (hg : Good s) : Good (rebound s b) := by
  unfold Good rebound
  simp [good_disconnected s hg]

theorem good_unbound (s : State) (hg : Good s) : Good (unbound s) := by
  unfold Good unbound
  simp [good_disconnected s hg]

theorem good_of_kept (s s1 : State) (hg : Good s) (h1 : s1.m_stream = s.m_stream)
    (h2 : s1.connections = s.connections) : Good s1 := by
  unfold Good at hg ⊢
  rw [h1, h2]; exact hg

theorem setStream_facts (dbg : Bool) (e : StateEnum) (stream : Option Nat) (r : StartReaction)
    (s s1 : State) (t : List Effect) (h : setStream dbg e stream r s = some (s1, t)) :
    Calm s t s1 ∧ s1.m_stream = stream ∧ (Good s → Good s1) ∧
      (stream ≠ s.m_stream → s1.m_texId = 0) := by
  by_cases hsame : stream = s.m_stream
  · subst hsame
    rw [setStream_same] at h
    simp only [Option.some.injEq, Prod.mk.injEq] at h
    obtain ⟨rfl, rfl⟩ := h
    exact ⟨Calm.refl_of s s [] rfl rfl (by simp), rfl, id, fun h => absurd rfl h⟩
  · cases stream with
    | none =>
      rw [setStream_unbind dbg e r s hsame] at h
      simp only [Option.some.injEq, Prod.mk.injEq] at h
      obtain ⟨rfl, rfl⟩ := h
      obtain ⟨c1, m1, k1, x1⟩ := updateFrameSize_calm (unbound s) r.after
      have c0 : Calm s (disconnectTrace s ++ [.emit (.errorTextChanged (.tr "No<br>Video")),
          .emit (.pausedChanged false), .emit (.connectedChanged false)]) (unbound s) :=
        Calm.refl_of s (unbound s) _ rfl rfl (by
          unfold disconnectTrace; cases s.m_stream <;> simp [Effect.isTextureCall])
      have c2 : Calm (updateFrameSize (unbound s) r.after).1 [Effect.update]
          (updateFrameSize (unbound s) r.after).1 :=
        Calm.refl_of _ _ _ rfl rfl (by simp [Effect.isTextureCall])
      refine ⟨(c0.trans c1).trans c2, m1, fun hg => ?_, fun _ => x1⟩
      exact good_of_kept _ _ (good_unbound s hg) m1 k1
    | some b =>
      rw [setStream_bind dbg e b r s hsame] at h
      cases hd : deliverAll dbg e (.stream b) r.emissions (rebound s b) with
      | none => simp [hd] at h
      | some x =>
        obtain ⟨s4, t3⟩ := x
        simp only [hd, Option.some.injEq, Prod.mk.injEq] at h
        obtain ⟨rfl, rfl⟩ := h
        obtain ⟨cd, md, kd⟩ := deliverAll_calm dbg e _ _ _ _ _ hd
        obtain ⟨c1, m1, k1, x1⟩ := updateFrameSize_calm s4 r.after
        have c0 : Calm s (disconnectTrace s ++ (streamConnections b).map Effect.connect ++
            [.start b]) (rebound s b) :=
          Calm.refl_of s (rebound s b) _ rfl rfl (by
            unfold disconnectTrace
            cases s.m_stream <;> simp [Effect.isTextureCall, streamConnections])
        have c3 : Calm s4 [.emit (.pausedChanged (isPaused s4 r.after)),
            .emit (.connectedChanged (isConnected e s4 r.after))] s4 :=
          Calm.refl_of _ _ _ rfl rfl (by simp [Effect.isTextureCall])
        have c2 : Calm (updateFrameSize s4 r.after).1 [Effect.update]
            (updateFrameSize s4 r.after).1 :=
          Calm.refl_of _ _ _ rfl rfl (by simp [Effect.isTextureCall])
        refine ⟨(((c0.trans cd).trans c3).trans c1).trans c2, m1.trans md, fun hg => ?_,
          fun _ => x1⟩
        exact good_of_kept _ _ (good_of_kept _ _ (good_rebound s b hg) md kd) m1 k1

theorem invoke_total (dbg : Bool) (e : StateEnum) (w : World) (m : Method) (ev : SignalEvent)
    (s : State) (hm : m = .streamStateChanged → s.m_stream ≠ none) :
    ∃ r, invoke dbg e w m ev s = some r := by
  cases m with
  | streamStateChanged =>
    cases ev with
    | stateChanged state =>
      cases hs : s.m_stream with
      | none => exact absurd hs (hm rfl)
      | some p => exact ⟨_, streamStateChanged_bound dbg e state s w p hs⟩
    | _ => exact ⟨_, rfl⟩
  | pausedChanged => cases ev <;> exact ⟨_, rfl⟩
  | _ => cases ev <;> exact ⟨_, rfl⟩

theorem invokeAll_total (dbg : Bool) (e : StateEnum) (w : World) (ev : SignalEvent) :
    ∀ (ms : List Method) (s : State),
      (∀ m ∈ ms, m = Method.streamStateChanged → s.m_stream ≠ none) →
      ∃ r, invokeAll dbg e w ev ms s = some r
  | [], s, _ => ⟨_, rfl⟩
  | m :: ms, s, h => by
    obtain ⟨⟨sa, ta⟩, h1⟩ := invoke_total dbg e w m ev s (h m (List.mem_cons_self _ _))
    obtain ⟨_, ma, _⟩ := invoke_calm dbg e w m ev s sa ta h1
    obtain ⟨⟨sb, tb⟩, h2⟩ := invokeAll_total dbg e w ev ms sa
      (fun x hx hxe => by rw [ma]; exact h x (List.mem_cons_of_mem _ hx) hxe)
    exact ⟨(sb, ta ++ tb), by simp only [invokeAll, h1, h2]⟩

theorem dispatch_total (dbg : Bool) (e : StateEnum) (w : World) (sender : Sender)
    (ev : SignalEvent) (s : State) (hg : Good s) :
    ∃ r, dispatch dbg e w sender ev s = some r := by
  apply invokeAll_total
  intro m hmem hm
  subst hm
  unfold Good at hg
  intro hnone
  rw [hg, hnone] at hmem
  simp only [List.filter_cons, List.filter_nil, List.mem_map] at hmem
  obtain ⟨k, hk, hkm⟩ := hmem
  split at hk
  · simp only [List.mem_singleton] at hk
    subst hk
    cases hkm
  · simp at hk

theorem deliverAll_total (dbg : Bool) (e : StateEnum) (sender : Sender) :
    ∀ (evs : List (World × SignalEvent)) (s : State), Good s →
      ∃ r, deliverAll dbg e sender evs s = some r
  | [], s, _ => ⟨_, rfl⟩
  | (w, ev) :: evs, s, hg => by
    obtain ⟨⟨sa, ta⟩, h1⟩ := dispatch_total dbg e w sender ev s hg
    obtain ⟨_, ma, ka⟩ := dispatch_calm dbg e w sender ev s sa ta h1
    obtain ⟨⟨sb, tb⟩, h2⟩ := deliverAll_total dbg e sender evs sa (good_of_kept s sa hg ma ka)
    exact ⟨(sb, ta ++ tb), by simp only [deliverAll, h1, h2]⟩

theorem setStream_total (dbg : Bool) (e : StateEnum) (stream : Option Nat) (r : StartReaction)
    (s : State) (hg : Good s) : ∃ x, setStream dbg e stream r s = some x := by
  by_cases hsame : stream = s.m_stream
  · subst hsame; exact ⟨_, setStream_same dbg e r s⟩
  · cases stream with
    | none => exact ⟨_, setStream_unbind dbg e r s hsame⟩
    | some b =>
      obtain ⟨⟨s4, t3⟩, hd⟩ :=
        deliverAll_total dbg e (.stream b) r.emissions (rebound s b) (good_rebound s b hg)
      rw [setStream_bind dbg e b r s hsame, hd]
      exact ⟨_, rfl⟩

theorem clear_facts (dbg : Bool) (e : StateEnum) (s s1 : State) (w : World) (t : List Effect)
    (h : clear dbg e s w = some (s1, t)) :
    Calm s t s1 ∧ s1.m_stream = none ∧ (Good s → Good s1) ∧ s1.m_texId = 0 := by
  unfold clear at h
  cases hs : setStream dbg e none { emissions := [], after := w } s with
  | none => simp [hs] at h
  | some x =>
    obtain ⟨sa, ta⟩ := x
    obtain ⟨ca, ma, ga, _⟩ := setStream_facts dbg e none _ s sa ta hs
    simp only [hs] at h
    by_cases htex : sa.m_texId = 0
    · simp only [htex, ne_eq, not_true_eq_false, if_false, Option.some.injEq,
        Prod.mk.injEq] at h
      obtain ⟨rfl, rfl⟩ := h
      exact ⟨ca, ma, ga, htex⟩
    · simp only [htex, ne_eq, not_false_eq_true, if_true, Option.some.injEq,
        Prod.mk.injEq] at h
      obtain ⟨rfl, rfl⟩ := h
      have cb : Calm sa [Effect.gl (.glDeleteTextures 1 sa.m_texId)] { sa with m_texId := 0 } :=
        ⟨fun _ _ => rfl, by simp [replay, texLive, htex], by simp⟩
      exact ⟨ca.trans cb, ma, fun hg => good_of_kept _ _ (ga hg) rfl rfl, rfl⟩

theorem clear_total (dbg : Bool) (e : StateEnum) (s : State) (w : World) (hg : Good s) :
    ∃ x, clear dbg e s w = some x := by
  obtain ⟨⟨sa, ta⟩, hs⟩ := setStream_total dbg e none { emissions := [], after := w } s hg
  unfold clear
  simp only [hs]
  split <;> exact ⟨_, rfl⟩

theorem step_facts (dbg : Bool) (e : StateEnum) (w : World) (op : Op) (s s1 : State)
    (t : List Effect) (h : step dbg e w op s = some (s1, t)) :
    (AccelInv s → AccelInv s1) ∧ (Good s → Good s1) ∧
      (op.NonZeroName → replay (texLive s) t = some (texLive s1)) := by
  cases op with
  | setStream stream r =>
    obtain ⟨c, _, g, _⟩ := setStream_facts dbg e stream r s s1 t h
    exact ⟨c.accel, g, fun _ => c.replayed⟩
  | clear =>
    obtain ⟨c, _, g, _⟩ := clear_facts dbg e s s1 w t h
    exact ⟨c.accel, g, fun _ => c.replayed⟩
  | setPaused paused =>
    simp only [step, setPaused, Option.some.injEq] at h
    have hc : Calm s t s1 ∧ s1.m_stream = s.m_stream ∧ s1.connections = s.connections := by
      cases hm : s.m_stream with
      | none =>
        simp only [hm, Prod.mk.injEq] at h
        obtain ⟨rfl, rfl⟩ := h
        exact ⟨Calm.refl_of s s [] rfl rfl (by simp), hm, rfl⟩
      | some p =>
        simp only [hm, Prod.mk.injEq] at h
        obtain ⟨rfl, rfl⟩ := h
        exact ⟨Calm.refl_of s s _ rfl rfl (by simp [Effect.isTextureCall]), hm, rfl⟩
    exact ⟨hc.1.accel, fun hg => good_of_kept s s1 hg hc.2.1 hc.2.2, fun _ => hc.1.replayed⟩
  | paint engine rect newName =>
    obtain ⟨hm, hk, ha, hcase⟩ := paint_facts dbg engine rect newName s s1 w t h
    refine ⟨?_, fun hg => good_of_kept s s1 hg hm hk, ?_⟩
    · intro hinv
      rcases hcase with ⟨htex, _⟩ | ⟨_, hacc, _⟩
      · unfold AccelInv at hinv ⊢; rw [ha, htex]; exact hinv
      · unfold AccelInv; rw [ha, hacc]; intro hf; cases hf
    · intro hname
      rcases hcase with ⟨htex, hskip⟩ | ⟨htex, _, _, hnew, hrep, _⟩
      · rw [replay_skip t hskip]; simp [texLive, htex]
      · have hn : newName ≠ 0 := hname
        simp only [texLive, htex, hnew, hn, if_true, if_false]
        exact hrep
  | signal sender ev =>
    obtain ⟨c, m, k⟩ := dispatch_calm dbg e w sender ev s s1 t h
    exact ⟨c.accel, fun hg => good_of_kept s s1 hg m k, fun _ => c.replayed⟩

theorem step_total (dbg : Bool) (e : StateEnum) (w : World) (op : Op) (s : State) (hg : Good s)
    (hname : op.NonZeroName) : ∃ r, step dbg e w op s = some r := by
  cases op with
  | setStream stream r => exact setStream_total dbg e stream r s hg
  | clear => exact clear_total dbg e s w hg
  | setPaused paused => exact ⟨_, rfl⟩
  | paint engine rect newName => exact paint_total dbg engine rect newName s w (fun _ => hname)
  | signal sender ev => exact dispatch_total dbg e w sender ev s hg

theorem run_facts (dbg : Bool) (e : StateEnum) :
    ∀ (ops : List (World × Op)) (s s1 : State) (t : List Effect),
      run dbg e ops s = some (s1, t) →
      (AccelInv s → AccelInv s1) ∧ (Good s → Good s1) ∧
        ((∀ x ∈ ops, x.2.NonZeroName) → replay (texLive s) t = some (texLive s1))
  | [], s, s1, t, h => by
    simp only [run, Option.some.injEq, Prod.mk.injEq] at h
    obtain ⟨rfl, rfl⟩ := h
    exact ⟨id, id, fun _ => rfl⟩
  | (w, op) :: rest, s, s1, t, h => by
    simp only [run] at h
    cases h1 : step dbg e w op s with
    | none => simp [h1] at h
    | some x =>
      obtain ⟨sa, ta⟩ := x
      simp only [h1] at h
      cases h2 : run dbg e rest sa with
      | none => simp [h2] at h
      | some y =>
        obtain ⟨sb, tb⟩ := y
        simp only [h2, Option.some.injEq, Prod.mk.injEq] at h
        obtain ⟨rfl, rfl⟩ := h
        obtain ⟨a1, g1, r1⟩ := step_facts dbg e w op s sa ta h1
        obtain ⟨a2, g2, r2⟩ := run_facts dbg e rest sa sb tb h2
        refine ⟨fun hh => a2 (a1 hh), fun hh => g2 (g1 hh), fun hn => ?_⟩
        rw [replay_append, r1 (hn (w, op) (List.mem_cons_self _ _))]
        exact r2 (fun x hx => hn x (List.mem_cons_of_mem _ hx))

theorem run_total (dbg : Bool) (e : StateEnum) :
    ∀ (ops : List (World × Op)) (s : State), Good s → (∀ x ∈ ops, x.2.NonZeroName) →
      ∃ r, run dbg e ops s = some r
  | [], s, _, _ => ⟨_, rfl⟩
  | (w, op) :: rest, s, hg, hn => by
    obtain ⟨⟨sa, ta⟩, h1⟩ := step_total dbg e w op s hg (hn (w, op) (List.mem_cons_self _ _))
    obtain ⟨_, g1, _⟩ := step_facts dbg e w op s sa ta h1
    obtain ⟨⟨sb, tb⟩, h2⟩ := run_total dbg e rest sa (g1 hg)
      (fun x hx => hn x (List.mem_cons_of_mem _ hx))
    exact ⟨(sb, ta ++ tb), by simp only [run, h1, h2]⟩

theorem construct_eq (c : Int) (w : World) :
    construct c w =
      ({ m_stream := none, m_useAdvancedGL := !w.disableAdvancedOpengl, m_texId := 0,
         m_texDataPtr := 0, c := c,
         connections :=
           [{ sender := .bcApp, signal := .settingsChanged, method := .updateSettings }] },
       [.setFlagItemHasNoContents false,
        .connect { sender := .bcApp, signal := .settingsChanged, method := .updateSettings }]) := by
  cases h : w.disableAdvancedOpengl <;> simp [construct, updateSettings, h]

theorem construct_facts (c : Int) (w : World) :
    Good (construct c w).1 ∧ AccelInv (construct c w).1 ∧ (construct c w).1.m_texId = 0 ∧
      (construct c w).1.m_stream = none := by
  rw [construct_eq]
  exact ⟨rfl, fun _ => rfl, rfl, rfl⟩

theorem replay_split (pre post : List Effect) (live l : List Nat)
    (h : replay live (pre ++ post) = some l) :
    ∃ l1, replay live pre = some l1 ∧ replay l1 post = some l := by
  rw [replay_append] at h
  cases h1 : replay live pre with
  | none => simp [h1] at h
  | some l1 => exact ⟨l1, rfl, by simpa [h1] using h⟩

theorem replay_nogen (t : List Effect) :
    ∀ l, replay [] t = some l → (∀ k n, Effect.gl (.glGenTextures k n) ∉ t) → l = [] := by
  induction t with
  | nil => intro l h _; simp only [replay, Option.some.injEq] at h; exact h.symm
  | cons x t ih =>
    intro l h hn
    have hn1 : ∀ k n, Effect.gl (.glGenTextures k n) ∉ t :=
      fun k n hmem => hn k n (List.mem_cons_of_mem _ hmem)
    cases x with
    | gl c =>
      cases c with
      | glGenTextures k n => exact absurd (List.mem_cons_self _ _) (hn k n)
      | glDeleteTextures k n => simp [replay] at h
      | _ => simp only [replay] at h; exact ih l h hn1
    | _ => simp only [replay] at h; exact ih l h hn1

/-- What a successful replay says about every point of the trace. -/
theorem replay_discipline (t : List Effect) (l : List Nat) (h : replay [] t = some l)
    (pre post : List Effect) (hsplit : t = pre ++ post) :
    (liveAfter [] pre).length ≤ 1 ∧
      (∀ k n rest, post = Effect.gl (.glGenTextures k n) :: rest → liveAfter [] pre = []) ∧
      (∀ k n rest, post = Effect.gl (.glDeleteTextures k n) :: rest →
        liveAfter [] pre = [n]) := by
  subst hsplit
  obtain ⟨l1, h1, h2⟩ := replay_split pre post [] l h
  obtain ⟨hl, hlen⟩ := liveAfter_of_replay pre [] l1 h1
  refine ⟨by rw [hl]; exact hlen (by simp), ?_, ?_⟩
  · intro k n rest hp
    subst hp
    rw [hl]
    simp only [replay] at h2
    split at h2
    · assumption
    · simp at h2
  · intro k n rest hp
    subst hp
    rw [hl]
    simp only [replay] at h2
    split at h2
    · assumption
    · simp at h2

theorem dispatch_sizeChanged (dbg : Bool) (e : StateEnum) (w : World) (s : State) (p : Nat)
    (size : QSize) (hg : Good s) (hb : s.m_stream = some p) :
    dispatch dbg e w (.stream p) (.streamSizeChanged size) s =
      some ((updateFrameSize s w).1, (updateFrameSize s w).2 ++ []) := by
  unfold Good at hg
  rw [hb] at hg
  simp only [dispatch, hg, streamConnections, SignalEvent.name]
  simp [List.filter, invokeAll, invoke]

theorem dispatch_settingsChanged (dbg : Bool) (e : StateEnum) (w : World) (s : State)
    (hg : Good s) :
    dispatch dbg e w .bcApp .settingsChanged s =
      some ((updateSettings s w).1, (updateSettings s w).2 ++ []) := by
  unfold Good at hg
  cases hm : s.m_stream with
  | none =>
    rw [hm] at hg
    simp only [dispatch, hg, SignalEvent.name]
    simp [List.filter, invokeAll, invoke]
  | some p =>
    rw [hm] at hg
    simp only [dispatch, hg, streamConnections, SignalEvent.name]
    simp [List.filter, invokeAll, invoke]

/-- C3: take any sequence of operations on a freshly constructed item in which the driver hands
out non-zero texture names.  The run completes; at its end the live texture names are exactly
the one stored in m_texId (none when m_texId is 0); at every point of its trace at most one name
is alive, a name is generated only when none is alive, and a deletion names the one that is
alive.  If a stream is bound and a texture exists at the end, a size-changed event of that
stream makes exactly one OpenGL call, the deletion of that texture, and zeroes m_texId, and
whatever operations follow, no further deletion happens before a name is generated again. -/
theorem texture_lifecycle (dbg : Bool) (e : StateEnum) (c : Int) (w0 : World)
    (ops ops2 : List (World × Op)) (p : Nat) (w : World) (size : QSize)
    (hn : ∀ x ∈ ops, x.2.NonZeroName) (hn2 : ∀ x ∈ ops2, x.2.NonZeroName) :
    ∃ s t, run dbg e ops (construct c w0).1 = some (s, t) ∧
      liveAfter [] t = (if s.m_texId = 0 then [] else [s.m_texId]) ∧
      (∀ pre post, t = pre ++ post →
        (liveAfter [] pre).length ≤ 1 ∧
        (∀ k n rest, post = Effect.gl (.glGenTextures k n) :: rest → liveAfter [] pre = []) ∧
        (∀ k n rest, post = Effect.gl (.glDeleteTextures k n) :: rest →
          liveAfter [] pre = [n])) ∧
      (s.m_stream = some p → s.m_texId ≠ 0 →
        ∃ sa ta s2 t2,
          step dbg e w (.signal (.stream p) (.streamSizeChanged size)) s = some (sa, ta) ∧
          glCalls ta = [.glDeleteTextures 1 s.m_texId] ∧ sa.m_texId = 0 ∧
          run dbg e ops2 sa = some (s2, t2) ∧
          ∀ pre k n rest, t2 = pre ++ Effect.gl (.glDeleteTextures k n) :: rest →
            ∃ k1 n1, Effect.gl (.glGenTextures k1 n1) ∈ pre) := by
  obtain ⟨hgood, _, htex0, _⟩ := construct_facts c w0
  obtain ⟨⟨s, t⟩, hrun⟩ := run_total dbg e ops (construct c w0).1 hgood hn
  obtain ⟨_, hg, hrep⟩ := run_facts dbg e ops _ s t hrun
  have hrep1 : replay [] t = some (texLive s) := by
    have := hrep hn
    simpa [texLive, htex0] using this
  refine ⟨s, t, hrun, (liveAfter_of_replay t [] _ hrep1).1, replay_discipline t _ hrep1, ?_⟩
  intro hb htex
  have hstep : step dbg e w (.signal (.stream p) (.streamSizeChanged size)) s =
      some ((updateFrameSize s w).1, (updateFrameSize s w).2 ++ []) :=
    dispatch_sizeChanged dbg e w s p size (hg hgood) hb
  obtain ⟨_, ga, _⟩ := step_facts dbg e w _ s _ _ hstep
  obtain ⟨⟨s2, t2⟩, hrun2⟩ := run_total dbg e ops2 (updateFrameSize s w).1 (ga (hg hgood)) hn2
  obtain ⟨_, _, hrep2⟩ := run_facts dbg e ops2 _ s2 t2 hrun2
  have hz : (updateFrameSize s w).1.m_texId = 0 := (updateFrameSize_calm s w).2.2.2
  refine ⟨_, _, s2, t2, hstep, ?_, hz, hrun2, ?_⟩
  · rw [updateFrameSize_eq]; simp [glCalls, htex]
  · intro pre k n rest hsplit
    have h2 : replay [] t2 = some (texLive s2) := by
      have := hrep2 hn2
      simpa [texLive, hz] using this
    rw [hsplit] at h2
    obtain ⟨l1, h3, h4⟩ := replay_split pre _ [] _ h2
    by_contra hcon
    have hno : ∀ k1 n1, Effect.gl (.glGenTextures k1 n1) ∉ pre :=
      fun k1 n1 hmem => hcon ⟨k1, n1, hmem⟩
    have := replay_nogen pre l1 h3 hno
    subst this
    simp [replay] at h4

theorem sampleOps_names : ∀ x ∈ sampleOps, x.2.NonZeroName := by
  intro x hx
  simp only [sampleOps, List.mem_cons, List.mem_singleton, List.not_mem_nil, or_false] at hx
  rcases hx with rfl | rfl <;> simp [Op.NonZeroName]

theorem sampleOps2_names : ∀ x ∈ sampleOps2, x.2.NonZeroName := by
  intro x hx
  simp only [sampleOps2, List.mem_singleton] at hx
  subst hx
  simp [Op.NonZeroName]

theorem texture_lifecycle_witness :
    ∃ s t, run true listedOrder sampleOps (construct 1 (worldOf connectingStream)).1
        = some (s, t) ∧
      liveAfter [] t = (if s.m_texId = 0 then [] else [s.m_texId]) ∧
      (∀ pre post, t = pre ++ post →
        (liveAfter [] pre).length ≤ 1 ∧
        (∀ k n rest, post = Effect.gl (.glGenTextures k n) :: rest → liveAfter [] pre = []) ∧
        (∀ k n rest, post = Effect.gl (.glDeleteTextures k n) :: rest →
          liveAfter [] pre = [n])) ∧
      (s.m_stream = some 7 → s.m_texId ≠ 0 →
        ∃ sa ta s2 t2,
          step true listedOrder (worldOf streamingStream)
            (.signal (.stream 7) (.streamSizeChanged ⟨320, 240⟩)) s = some (sa, ta) ∧
          glCalls ta = [.glDeleteTextures 1 s.m_texId] ∧ sa.m_texId = 0 ∧
          run true listedOrder sampleOps2 sa = some (s2, t2) ∧
          ∀ pre k n rest, t2 = pre ++ Effect.gl (.glDeleteTextures k n) :: rest →
            ∃ k1 n1, Effect.gl (.glGenTextures k1 n1) ∈ pre) :=
  texture_lifecycle true listedOrder 1 (worldOf connectingStream) sampleOps sampleOps2 7
    (worldOf streamingStream) ⟨320, 240⟩ sampleOps_names sampleOps2_names

theorem calm_keeps_zero (s s1 : State) (t : List Effect) (hc : Calm s t s1)
    (h0 : s.m_texId = 0) : s1.m_texId = 0 := by
  have h := hc.replayed
  simp only [texLive, h0, if_true] at h
  have := replay_nogen t _ h hc.noGen
  by_contra hne
  simp [hne] at this

/-- C4: in every state reached from construction, no texture is held while acceleration is
disabled.  In such a state: a settings update that disables acceleration while a texture exists
makes one call, the deletion of that texture, and zeroes m_texId; while acceleration is disabled
no operation generates a texture name and m_texId stays 0; a settings update that enables
acceleration makes no call and leaves m_texId alone; and the only operation that generates a
texture name is a paint call with acceleration enabled, on an OpenGL2 engine, of a non-null
frame. -/
theorem no_texture_without_acceleration (dbg : Bool) (e : StateEnum) (c : Int) (w0 : World)
    (ops : List (World × Op)) (s : State) (t : List Effect)
    (hrun : run dbg e ops (construct c w0).1 = some (s, t)) :
    (s.m_useAdvancedGL = false → s.m_texId = 0) ∧
    (∀ w, w.disableAdvancedOpengl = true → s.m_texId ≠ 0 →
      step dbg e w (.signal .bcApp .settingsChanged) s =
        some ({ s with m_useAdvancedGL := false, m_texId := 0 },
              [.gl (.glDeleteTextures 1 s.m_texId)])) ∧
    (∀ w op s1 t1, s.m_useAdvancedGL = false → step dbg e w op s = some (s1, t1) →
      s1.m_texId = 0 ∧ ∀ k n, Effect.gl (.glGenTextures k n) ∉ t1) ∧
    (∀ w, w.disableAdvancedOpengl = false →
      step dbg e w (.signal .bcApp .settingsChanged) s =
        some ({ s with m_useAdvancedGL := true }, [])) ∧
    (∀ w op s1 t1 k n, step dbg e w op s = some (s1, t1) →
      Effect.gl (.glGenTextures k n) ∈ t1 →
      ∃ rect newName q frame, op = .paint .OpenGL2 rect newName ∧ s.m_stream = some q ∧
        (w.streams q).currentFrame = some frame ∧ s.m_useAdvancedGL = true) := by
  obtain ⟨hgood0, hacc0, _, _⟩ := construct_facts c w0
  obtain ⟨ha, hg, _⟩ := run_facts dbg e ops _ s t hrun
  have hinv : AccelInv s := ha hacc0
  have hgood : Good s := hg hgood0
  have hgen : ∀ w op s1 t1 k n, step dbg e w op s = some (s1, t1) →
      Effect.gl (.glGenTextures k n) ∈ t1 →
      ∃ rect newName q frame, op = .paint .OpenGL2 rect newName ∧ s.m_stream = some q ∧
        (w.streams q).currentFrame = some frame ∧ s.m_useAdvancedGL = true := by
    intro w op s1 t1 k n hstep hmem
    cases op with
    | setStream stream r =>
      exact absurd hmem ((setStream_facts dbg e stream r s s1 t1 hstep).1.noGen k n)
    | clear => exact absurd hmem ((clear_facts dbg e s s1 w t1 hstep).1.noGen k n)
    | setPaused paused =>
      simp only [step, setPaused, Option.some.injEq] at hstep
      cases hm : s.m_stream <;> simp only [hm, Prod.mk.injEq] at hstep <;>
        obtain ⟨_, rfl⟩ := hstep <;> simp at hmem
    | paint engine rect newName =>
      obtain ⟨_, _, _, hcase⟩ := paint_facts dbg engine rect newName s s1 w t1 hstep
      rcases hcase with ⟨_, hskip⟩ | ⟨_, hacc, heng, _, _, q, frame, hq, hf⟩
      · have := hskip _ hmem
        simp [Effect.isTextureCall] at this
      · subst heng
        exact ⟨rect, newName, q, frame, rfl, hq, hf, hacc⟩
    | signal sender ev =>
      exact absurd hmem ((dispatch_calm dbg e w sender ev s s1 t1 hstep).1.noGen k n)
  refine ⟨hinv, ?_, ?_, ?_, hgen⟩
  · intro w hd htex
    simp only [step]
    rw [dispatch_settingsChanged dbg e w s hgood, updateSettings_eq]
    simp [hd, htex]
  · intro w op s1 t1 hoff hstep
    have h0 : s.m_texId = 0 := hinv hoff
    refine ⟨?_, ?_⟩
    · cases op with
      | setStream stream r =>
        exact calm_keeps_zero s s1 t1 (setStream_facts dbg e stream r s s1 t1 hstep).1 h0
      | clear => exact (clear_facts dbg e s s1 w t1 hstep).2.2.2
      | setPaused paused =>
        simp only [step, setPaused, Option.some.injEq] at hstep
        cases hm : s.m_stream <;> simp only [hm, Prod.mk.injEq] at hstep <;>
          obtain ⟨rfl, _⟩ := hstep <;> exact h0
      | paint engine rect newName =>
        obtain ⟨_, _, _, hcase⟩ := paint_facts dbg engine rect newName s s1 w t1 hstep
        rcases hcase with ⟨htex, _⟩ | ⟨_, hacc, _⟩
        · rw [htex]; exact h0
        · rw [hoff] at hacc; cases hacc
      | signal sender ev =>
        exact calm_keeps_zero s s1 t1 (dispatch_calm dbg e w sender ev s s1 t1 hstep).1 h0
    · intro k n hmem
      obtain ⟨_, _, _, _, _, _, _, hacc⟩ := hgen w op s1 t1 k n hstep hmem
      rw [hoff] at hacc; cases hacc
  · intro w hd
    simp only [step]
    rw [dispatch_settingsChanged dbg e w s hgood, updateSettings_eq]
    simp [hd]

theorem no_texture_without_acceleration_witness :
    (paintedItem.m_useAdvancedGL = false → paintedItem.m_texId = 0) ∧
    (∀ w, w.disableAdvancedOpengl = true → paintedItem.m_texId ≠ 0 →
      step true listedOrder w (.signal .bcApp .settingsChanged) paintedItem =
        some ({ paintedItem with m_useAdvancedGL := false, m_texId := 0 },
              [.gl (.glDeleteTextures 1 paintedItem.m_texId)])) ∧
    (∀ w op s1 t1, paintedItem.m_useAdvancedGL = false →
      step true listedOrder w op paintedItem = some (s1, t1) →
      s1.m_texId = 0 ∧ ∀ k n, Effect.gl (.glGenTextures k n) ∉ t1) ∧
    (∀ w, w.disableAdvancedOpengl = false →
      step true listedOrder w (.signal .bcApp .settingsChanged) paintedItem =
        some ({ paintedItem with m_useAdvancedGL := true }, [])) ∧
    (∀ w op s1 t1 k n, step true listedOrder w op paintedItem = some (s1, t1) →
      Effect.gl (.glGenTextures k n) ∈ t1 →
      ∃ rect newName q frame, op = .paint .OpenGL2 rect newName ∧
        paintedItem.m_stream = some q ∧
        (w.streams q).currentFrame = some frame ∧ paintedItem.m_useAdvancedGL = true) :=
  no_texture_without_acceleration true listedOrder 1 (worldOf connectingStream) sampleOps
    paintedItem _ rfl

/-- C6: in every state reached from construction in which a stream A is bound, setStream(A)
returns at once: no member changes, nothing is connected and nothing is emitted.  For every
other handle B (null or not) setStream(B) completes, its first effect is the disconnect of A,
and only after it come the connects to B, one for each of updated, streamSizeChanged,
stateChanged and pausedChanged, followed by start(); afterwards the connection table holds no
entry whose sender is A, and it consists of the connection to bcApp and, when B is not null,
exactly one entry for each of the four signals of B. -/
theorem rebind_subscriptions (dbg : Bool) (e : StateEnum) (c : Int) (w0 : World)
    (ops : List (World × Op)) (s : State) (t0 : List Effect)
    (hrun : run dbg e ops (construct c w0).1 = some (s, t0))
    (a : Nat) (ha : s.m_stream = some a) (r : StartReaction) :
    setStream dbg e (some a) r s = some (s, []) ∧
    ∀ stream, stream ≠ some a →
      ∃ s1 rest, setStream dbg e stream r s = some (s1, Effect.disconnect a :: rest) ∧
        s1.m_stream = stream ∧
        (∀ k ∈ s1.connections, k.sender ≠ Sender.stream a) ∧
        s1.connections =
          { sender := .bcApp, signal := .settingsChanged, method := .updateSettings } ::
            (match stream with
             | some b =>
               [{ sender := .stream b, signal := .updated, method := .updateFrame },
                { sender := .stream b, signal := .streamSizeChanged, method := .updateFrameSize },
                { sender := .stream b, signal := .stateChanged, method := .streamStateChanged },
                { sender := .stream b, signal := .pausedChanged, method := .pausedChanged }]
             | none => []) ∧
        (∀ b, stream = some b → ∃ rest2, rest =
          [.connect { sender := .stream b, signal := .updated, method := .updateFrame },
           .connect { sender := .stream b, signal := .streamSizeChanged,
                      method := .updateFrameSize },
           .connect { sender := .stream b, signal := .stateChanged,
                      method := .streamStateChanged },
           .connect { sender := .stream b, signal := .pausedChanged, method := .pausedChanged },
           .start b] ++ rest2) := by
  obtain ⟨hgood0, _, _, _⟩ := construct_facts c w0
  obtain ⟨_, hg, _⟩ := run_facts dbg e ops _ s t0 hrun
  have hgood : Good s := hg hgood0
  refine ⟨by rw [← ha]; exact setStream_same dbg e r s, ?_⟩
  intro stream hne
  have hne1 : stream ≠ s.m_stream := by rw [ha]; exact hne
  have hdt : disconnectTrace s = [.disconnect a] := by simp [disconnectTrace, ha]
  cases stream with
  | none =>
    have hset := setStream_unbind dbg e r s hne1
    obtain ⟨_, hm, hgood1, _⟩ := setStream_facts dbg e none r s _ _ hset
    have hconn := hgood1 hgood
    unfold Good at hconn
    rw [hm] at hconn
    rw [hdt] at hset
    refine ⟨_, _, hset, hm, ?_, hconn, ?_⟩
    · intro k hk
      rw [hconn] at hk
      simp only [List.mem_singleton] at hk
      subst hk
      simp
    · intro b hb; cases hb
  | some b =>
    have hab : b ≠ a := fun h => hne (by rw [h])
    obtain ⟨⟨s4, t3⟩, hd⟩ :=
      deliverAll_total dbg e (.stream b) r.emissions (rebound s b) (good_rebound s b hgood)
    have hset := setStream_bind dbg e b r s hne1
    rw [hd] at hset
    simp only at hset
    obtain ⟨_, hm, hgood1, _⟩ := setStream_facts dbg e (some b) r s _ _ hset
    have hconn := hgood1 hgood
    unfold Good at hconn
    rw [hm] at hconn
    rw [hdt] at hset
    refine ⟨_, _, hset, hm, ?_, hconn, ?_⟩
    · intro k hk
      rw [hconn] at hk
      simp only [streamConnections, List.mem_cons, List.mem_singleton, List.not_mem_nil,
        or_false] at hk
      rcases hk with rfl | rfl | rfl | rfl | rfl <;> simp [hab]
    · intro b1 hb
      cases hb
      refine ⟨t3 ++ [.emit (.pausedChanged (isPaused s4 r.after)),
          .emit (.connectedChanged (isConnected e s4 r.after))] ++
          (updateFrameSize s4 r.after).2 ++ [.update], ?_⟩
      simp [streamConnections]

theorem rebind_subscriptions_witness :
    setStream true listedOrder (some 7) sampleStart paintedItem = some (paintedItem, []) ∧
    ∀ stream, stream ≠ some 7 →
      ∃ s1 rest, setStream true listedOrder stream sampleStart paintedItem
          = some (s1, Effect.disconnect 7 :: rest) ∧
        s1.m_stream = stream ∧
        (∀ k ∈ s1.connections, k.sender ≠ Sender.stream 7) ∧
        s1.connections =
          { sender := .bcApp, signal := .settingsChanged, method := .updateSettings } ::
            (match stream with
             | some b =>
               [{ sender := .stream b, signal := .updated, method := .updateFrame },
                { sender := .stream b, signal := .streamSizeChanged, method := .updateFrameSize },
                { sender := .stream b, signal := .stateChanged, method := .streamStateChanged },
                { sender := .stream b, signal := .pausedChanged, method := .pausedChanged }]
             | none => []) ∧
        (∀ b, stream = some b → ∃ rest2, rest =
          [.connect { sender := .stream b, signal := .updated, method := .updateFrame },
           .connect { sender := .stream b, signal := .streamSizeChanged,
                      method := .updateFrameSize },
           .connect { sender := .stream b, signal := .stateChanged,
                      method := .streamStateChanged },
           .connect { sender := .stream b, signal := .pausedChanged, method := .pausedChanged },
           .start b] ++ rest2) :=
  rebind_subscriptions true listedOrder 1 (worldOf connectingStream) sampleOps paintedItem _ rfl
    7 rfl sampleStart

/-- C9 (the code at the failing input): an item binds a stream, is cleared, and is then bound
to the stream at address 8, which is already in state Connecting and whose start() therefore
emits nothing.  The run completes with that stream bound.  The first binding shows
Connecting... (through the state-changed event of its start()), clear() shows No<br>Video, and
the final setStream connects, starts, and emits pausedChanged, connectedChanged and
frameSizeChanged but no errorTextChanged: the text on display stays No<br>Video. -/
theorem bind_leaves_stale_text :
    ∃ s t1 t2 t3,
      runEach true listedOrder rebindAfterClear (construct 1 (worldOf connectingStream)).1
        = some (s, [t1, t2, t3]) ∧
      s.m_stream = some 8 ∧
      ((worldOf connectingStream).streams 8).state = listedOrder.Connecting ∧
      errorTexts t1 = [.tr "Connecting..."] ∧
      errorTexts t2 = [.tr "No<br>Video"] ∧
      errorTexts t3 = [] ∧
      (errorTexts (t1 ++ t2 ++ t3)).getLast? = some (.tr "No<br>Video") ∧
      t3 = (streamConnections 8).map Effect.connect ++
        [.start 8, .emit (.pausedChanged false), .emit (.connectedChanged false),
         .emit (.frameSizeChanged ⟨0, 0⟩), .update] := by
  refine ⟨_, _, _, _, rfl, ?_, ?_, ?_, ?_, ?_, ?_, ?_⟩ <;> decide

end LiveStreamItem
